import Mathlib

/-!
Verification development for the scoped-configuration engine of the
src-tauri backend (src/src-tauri/src/commands.rs and helper.rs).

The Rust code is shallowly embedded: JSON values become an inductive type,
serde_json maps become association lists keyed by strings, file contents are
passed in and returned explicitly, and fallible commands return Except.
-/

set_option maxHeartbeats 1000000

namespace ClaudeSamurai

/-- Shallow embedding of serde_json::Value. Objects are association lists;
numbers are restricted to integers, which is all the claims need. -/
inductive Json where
  | null : Json
  | bool : Bool → Json
  | num : Int → Json
  | str : String → Json
  | arr : List Json → Json
  | obj : List (String × Json) → Json

/-- Value::as_str. -/
def Json.asStr : Json → Option String
  | .str s => some s
  | _ => none

/-- Value::as_object, returning the key-value list. -/
def Json.asObj : Json → Option (List (String × Json))
  | .obj l => some l
  | _ => none

/-- Value::as_array. -/
def Json.asArr : Json → Option (List Json)
  | .arr l => some l
  | _ => none

/-- Map::get on an association list: first binding of the key. -/
def lookupKV {α : Type} : List (String × α) → String → Option α
  | [], _ => none
  | (k1, v) :: rest, k => if k1 = k then some v else lookupKV rest k

/-- Map::insert on an association list: replace the first binding in place,
append at the end when the key is absent. -/
def insertKV {α : Type} : List (String × α) → String → α → List (String × α)
  | [], k, v => [(k, v)]
  | (k1, v1) :: rest, k, v =>
      if k1 = k then (k, v) :: rest else (k1, v1) :: insertKV rest k v

/-- Map::entry(k).or_insert(v): insert only when the key is absent. -/
def entryOrInsert {α : Type} (l : List (String × α)) (k : String) (v : α) :
    List (String × α) :=
  match lookupKV l k with
  | some _ => l
  | none => l ++ [(k, v)]

/-- Object lookup on a Json value (Value::get for objects). -/
def Json.lookupJ (j : Json) (k : String) : Option Json :=
  match j with
  | .obj l => lookupKV l k
  | _ => none

theorem lookupKV_insertKV_self {α : Type} (l : List (String × α)) (k : String) (v : α) :
    lookupKV (insertKV l k v) k = some v := by
  induction l with
  | nil => simp [insertKV, lookupKV]
  | cons hd tl ih =>
      obtain ⟨k1, v1⟩ := hd
      by_cases h : k1 = k
      · simp [insertKV, h, lookupKV]
      · simp [insertKV, h, lookupKV, ih]

theorem lookupKV_insertKV_ne {α : Type} (l : List (String × α)) (k k2 : String) (v : α)
    (h : k2 ≠ k) : lookupKV (insertKV l k v) k2 = lookupKV l k2 := by
  induction l with
  | nil => simp [insertKV, lookupKV, Ne.symm h]
  | cons hd tl ih =>
      obtain ⟨k1, v1⟩ := hd
      by_cases h1 : k1 = k
      · subst h1
        simp [insertKV, lookupKV, Ne.symm h]
      · simp only [insertKV, if_neg h1, lookupKV]
        by_cases h2 : k1 = k2
        · simp [h2]
        · simp [h2, ih]

theorem lookupKV_entryOrInsert_present {α : Type} (l : List (String × α)) (k : String)
    (v w : α) (h : lookupKV l k = some w) :
    lookupKV (entryOrInsert l k v) k = some w := by
  simp [entryOrInsert, h]

theorem lookupKV_append_left {α : Type} (l1 l2 : List (String × α)) (k : String)
    (h : (lookupKV l1 k).isSome) :
    lookupKV (l1 ++ l2) k = lookupKV l1 k := by
  induction l1 with
  | nil => simp [lookupKV] at h
  | cons hd tl ih =>
      obtain ⟨k1, v1⟩ := hd
      by_cases h1 : k1 = k
      · simp [lookupKV, h1]
      · simp [lookupKV, h1] at h ⊢
        exact ih h

theorem lookupKV_entryOrInsert_absent {α : Type} (l : List (String × α)) (k : String)
    (v : α) (h : lookupKV l k = none) :
    lookupKV (entryOrInsert l k v) k = some v := by
  induction l with
  | nil => simp [entryOrInsert, lookupKV]
  | cons hd tl ih =>
      obtain ⟨k1, v1⟩ := hd
      by_cases h1 : k1 = k
      · simp [lookupKV, h1] at h
      · simp [lookupKV, h1] at h
        simp [entryOrInsert, lookupKV, h1, h] at ih ⊢
        simpa [entryOrInsert, h] using ih

theorem lookupKV_entryOrInsert_ne {α : Type} (l : List (String × α)) (k k2 : String)
    (v : α) (h : k2 ≠ k) :
    lookupKV (entryOrInsert l k v) k2 = lookupKV l k2 := by
  unfold entryOrInsert
  cases hl : lookupKV l k with
  | some w => rfl
  | none =>
      induction l with
      | nil => simp [lookupKV, Ne.symm h]
      | cons hd tl ih =>
          obtain ⟨k1, v1⟩ := hd
          by_cases h1 : k1 = k
          · simp [lookupKV, h1] at hl
          · by_cases h2 : k1 = k2
            · simp [lookupKV, h2]
            · simp [lookupKV, h1] at hl
              simp [lookupKV, h2]
              exact ih hl

/-! ## Scope merge (commands.rs: get_global_mcp_servers, get_mcp_servers_with_state) -/

/-- McpServer struct from commands.rs: a server config plus metadata. -/
structure McpServer where
  config : Json
  sourceType : String
  scope : String
  definedIn : String
  controllable : Bool

/-- create_mcp_server helper from commands.rs. -/
def create_mcp_server (config : Json) (sourceType scope definedIn : String)
    (controllable : Bool) : McpServer :=
  { config := config, sourceType := sourceType, scope := scope,
    definedIn := definedIn, controllable := controllable }

/-- One entry of the read_plugin_mcp_servers output: server name, the config
object, the plugin name and the install scope. -/
structure PluginServerEntry where
  name : String
  config : List (String × Json)
  pluginName : String
  pluginScope : String

/-- Step 1 of both merge functions: insert every server of the mcpServers
object of the user-global .mcp.json file (overwriting). -/
def userMcpjsonPhase (userMcpjson : List (String × Json)) : List (String × McpServer) :=
  userMcpjson.foldl
    (fun m p => insertKV m p.1 (create_mcp_server p.2 "mcpjson" "user" "~/.mcp.json" true)) []

/-- Step 2: direct servers of the user .claude.json file, inserted with
entry-or-insert, so a same-named .mcp.json entry is not overridden. -/
def userDirectPhase (m : List (String × McpServer)) (userDirect : List (String × Json)) :
    List (String × McpServer) :=
  userDirect.foldl
    (fun m p => entryOrInsert m p.1 (create_mcp_server p.2 "direct" "user" "~/.claude.json" false)) m

/-- Step 3 (get_mcp_servers_with_state only): plugin servers, also
entry-or-insert. -/
def pluginPhase (m : List (String × McpServer)) (pluginServers : List PluginServerEntry) :
    List (String × McpServer) :=
  pluginServers.foldl
    (fun m e => entryOrInsert m e.name
      (create_mcp_server (Json.obj e.config) "plugin" ("plugin-" ++ e.pluginScope)
        ("Plugin: " ++ e.pluginName ++ " (" ++ e.pluginScope ++ ")") true)) m

/-- Steps 4 and 5: project servers then local servers, both applied only when
a cwd is given, and local only when the project path is recorded in
.claude.json; both insert with overwrite. -/
def projectLocalPhase (m : List (String × McpServer))
    (projectServers localServers : List (String × Json))
    (cwd : Option String) (hasProjectPath : Bool) : List (String × McpServer) :=
  match cwd with
  | none => m
  | some c =>
      let m := projectServers.foldl
        (fun m p => insertKV m p.1
          (create_mcp_server p.2 "direct" "project"
            ("~/.claude.json .projects[" ++ c ++ "]") false)) m
      if hasProjectPath then
        localServers.foldl
          (fun m p => insertKV m p.1
            (create_mcp_server p.2 "mcpjson" "local" (c ++ "/.mcp.json") true)) m
      else m

/-- The merged server map built by get_mcp_servers_with_state before state
computation (commands.rs lines 1261 to 1345). -/
def mergeServersMap (userMcpjson userDirect : List (String × Json))
    (pluginServers : List PluginServerEntry)
    (projectServers localServers : List (String × Json))
    (cwd : Option String) (hasProjectPath : Bool) : List (String × McpServer) :=
  projectLocalPhase
    (pluginPhase (userDirectPhase (userMcpjsonPhase userMcpjson) userDirect) pluginServers)
    projectServers localServers cwd hasProjectPath

/-- get_global_mcp_servers (commands.rs lines 830 to 868): only the two
user-scope sources. -/
def get_global_mcp_servers (userMcpjson userDirect : List (String × Json)) :
    List (String × McpServer) :=
  userDirectPhase (userMcpjsonPhase userMcpjson) userDirect

/-! Generic fold lemmas for the phases. -/

theorem lookupKV_foldl_entry_some {α σ : Type} (key : σ → String) (g : σ → α)
    (l : List σ) (m : List (String × α)) (name : String) (srv : α)
    (h : lookupKV m name = some srv) :
    lookupKV (l.foldl (fun m e => entryOrInsert m (key e) (g e)) m) name = some srv := by
  induction l generalizing m with
  | nil => simpa using h
  | cons hd tl ih =>
      simp only [List.foldl_cons]
      exact ih _ (by
        by_cases hk : name = key hd
        · subst hk
          exact lookupKV_entryOrInsert_present _ _ _ _ h
        · rw [lookupKV_entryOrInsert_ne _ _ _ _ hk]
          exact h)

theorem lookupKV_foldl_insert_not_mem {α σ : Type} (key : σ → String) (g : σ → α)
    (l : List σ) (m : List (String × α)) (name : String)
    (h : name ∉ l.map key) :
    lookupKV (l.foldl (fun m e => insertKV m (key e) (g e)) m) name = lookupKV m name := by
  induction l generalizing m with
  | nil => simp
  | cons hd tl ih =>
      simp only [List.map_cons, List.mem_cons] at h
      push_neg at h
      simp only [List.foldl_cons]
      rw [ih _ h.2, lookupKV_insertKV_ne _ _ _ _ h.1]

theorem lookupKV_foldl_insert_nodup {α β : Type} (g : String × β → α)
    (l : List (String × β)) (m : List (String × α)) (name : String) (cfg : β)
    (hn : (l.map Prod.fst).Nodup) (hl : lookupKV l name = some cfg) :
    lookupKV (l.foldl (fun m p => insertKV m p.1 (g p)) m) name = some (g (name, cfg)) := by
  induction l generalizing m with
  | nil => simp [lookupKV] at hl
  | cons hd tl ih =>
      obtain ⟨k1, v1⟩ := hd
      simp only [List.map_cons, List.nodup_cons] at hn
      by_cases hk : k1 = name
      · subst hk
        simp [lookupKV] at hl
        subst hl
        simp only [List.foldl_cons]
        rw [lookupKV_foldl_insert_not_mem (fun p => p.1) g tl _ _ hn.1]
        exact lookupKV_insertKV_self m k1 (g (k1, v1))
      · simp only [lookupKV, if_neg hk] at hl
        simp only [List.foldl_cons]
        exact ih _ hn.2 hl

/-! ## Enablement state (commands.rs: get_mcp_servers_with_state, lines 1347 to 1391) -/

/-- McpEnabledState struct: the three overlay arrays read by
get_mcp_enabled_state. -/
structure McpEnabledState where
  enabledMcpjsonServers : List String
  disabledMcpjsonServers : List String
  disabledMcpServers : List String

/-- The per-entry state computation of get_mcp_servers_with_state
(commands.rs lines 1352 to 1373), translated verbatim from the source. -/
def computeServerState (sourceType : String) (st : McpEnabledState) (name : String) : String :=
  let inEnabled := st.enabledMcpjsonServers.contains name
  let inDisabled := st.disabledMcpjsonServers.contains name
  if sourceType = "direct" then
    if st.disabledMcpServers.contains name then "disabled" else "enabled"
  else
    if inDisabled && !inEnabled then "disabled"
    else if inEnabled && inDisabled then "runtime-disabled"
    else "enabled"

/-! ## Claim C1 -/

/-- Concrete sources for C1: the name srv is defined in both user sources
with different configs. -/
def c1UserMcpjson : List (String × Json) := [("srv", Json.str "A")]

/-- User-direct source for the C1 counterexample. -/
def c1UserDirect : List (String × Json) := [("srv", Json.str "B")]

/-- C1 counterexample: with srv defined in both user sources, both merge
functions keep the user-mcpjson definition, not the user-direct one, because
the user-direct pass uses entry-or-insert and never overwrites. -/
theorem C1_counterexample :
    lookupKV (get_global_mcp_servers c1UserMcpjson c1UserDirect) "srv"
      = some (create_mcp_server (Json.str "A") "mcpjson" "user" "~/.mcp.json" true)
    ∧ lookupKV (mergeServersMap c1UserMcpjson c1UserDirect [] [] [] none false) "srv"
      = some (create_mcp_server (Json.str "A") "mcpjson" "user" "~/.mcp.json" true)
    ∧ (lookupKV (get_global_mcp_servers c1UserMcpjson c1UserDirect) "srv").map
        McpServer.sourceType ≠ some "direct"
    ∧ (lookupKV (get_global_mcp_servers c1UserMcpjson c1UserDirect) "srv").map
        McpServer.config ≠ some (Json.str "B") := by
  refine ⟨rfl, rfl, ?_, ?_⟩
  · have h : lookupKV (get_global_mcp_servers c1UserMcpjson c1UserDirect) "srv"
        = some (create_mcp_server (Json.str "A") "mcpjson" "user" "~/.mcp.json" true) := rfl
    rw [h]
    simp [create_mcp_server]
  · have h : lookupKV (get_global_mcp_servers c1UserMcpjson c1UserDirect) "srv"
        = some (create_mcp_server (Json.str "A") "mcpjson" "user" "~/.mcp.json" true) := rfl
    rw [h]
    simp [create_mcp_server]

/-- C1 amended: for a name defined in both user sources, the merged map of
get_global_mcp_servers, and of get_mcp_servers_with_state when no project or
local source redefines the name, contains the user-mcpjson definition; the
user-direct definition is used only for names absent from user-mcpjson. -/
theorem C1_amended_user_mcpjson_wins
    (userMcpjson userDirect : List (String × Json))
    (pluginServers : List PluginServerEntry)
    (projectServers localServers : List (String × Json))
    (cwd : Option String) (hasProjectPath : Bool)
    (name : String) (cfg cfgD : Json)
    (hn : (userMcpjson.map Prod.fst).Nodup)
    (hm : lookupKV userMcpjson name = some cfg)
    (hd : lookupKV userDirect name = some cfgD)
    (hp : name ∉ projectServers.map Prod.fst)
    (hl : name ∉ localServers.map Prod.fst) :
    lookupKV (get_global_mcp_servers userMcpjson userDirect) name
      = some (create_mcp_server cfg "mcpjson" "user" "~/.mcp.json" true)
    ∧ lookupKV (mergeServersMap userMcpjson userDirect pluginServers projectServers
        localServers cwd hasProjectPath) name
      = some (create_mcp_server cfg "mcpjson" "user" "~/.mcp.json" true) := by
  have h1 : lookupKV (userMcpjsonPhase userMcpjson) name
      = some (create_mcp_server cfg "mcpjson" "user" "~/.mcp.json" true) :=
    lookupKV_foldl_insert_nodup
      (fun p => create_mcp_server p.2 "mcpjson" "user" "~/.mcp.json" true) _ _ _ _ hn hm
  have h2 : lookupKV (userDirectPhase (userMcpjsonPhase userMcpjson) userDirect) name
      = some (create_mcp_server cfg "mcpjson" "user" "~/.mcp.json" true) :=
    lookupKV_foldl_entry_some Prod.fst
      (fun p => create_mcp_server p.2 "direct" "user" "~/.claude.json" false) _ _ _ _ h1
  have h3 : lookupKV (pluginPhase
        (userDirectPhase (userMcpjsonPhase userMcpjson) userDirect) pluginServers) name
      = some (create_mcp_server cfg "mcpjson" "user" "~/.mcp.json" true) :=
    lookupKV_foldl_entry_some PluginServerEntry.name
      (fun e => create_mcp_server (Json.obj e.config) "plugin" ("plugin-" ++ e.pluginScope)
        ("Plugin: " ++ e.pluginName ++ " (" ++ e.pluginScope ++ ")") true) _ _ _ _ h2
  refine ⟨h2, ?_⟩
  unfold mergeServersMap projectLocalPhase
  cases cwd with
  | none => exact h3
  | some c =>
      have hproj : lookupKV (projectServers.foldl
          (fun m p => insertKV m p.1
            (create_mcp_server p.2 "direct" "project"
              ("~/.claude.json .projects[" ++ c ++ "]") false))
          (pluginPhase (userDirectPhase (userMcpjsonPhase userMcpjson) userDirect)
            pluginServers)) name
          = some (create_mcp_server cfg "mcpjson" "user" "~/.mcp.json" true) := by
        rw [lookupKV_foldl_insert_not_mem Prod.fst _ _ _ _ hp]
        exact h3
      cases hasProjectPath with
      | false => exact hproj
      | true =>
          simp only [if_true]
          rw [lookupKV_foldl_insert_not_mem Prod.fst _ _ _ _ hl]
          exact hproj

/-- Witness for the C1 amended theorem at concrete inputs. -/
theorem C1_amended_witness :
    lookupKV (get_global_mcp_servers [("s", Json.num 1)] [("s", Json.num 2)]) "s"
      = some (create_mcp_server (Json.num 1) "mcpjson" "user" "~/.mcp.json" true) :=
  (C1_amended_user_mcpjson_wins [("s", Json.num 1)] [("s", Json.num 2)] [] [] []
    none false "s" (Json.num 1) (Json.num 2) (by simp) rfl rfl (by simp) (by simp)).1

/-! ## Claim C2 -/

/-- C2: three-state enablement. For an entry with sourceType mcpjson or
plugin: runtime-disabled when the name is in both overlays, disabled when
only in the disabled overlay, enabled when in neither or only in the enabled
overlay. For sourceType direct: disabled exactly when the name is in
disabledMcpServers, else enabled. -/
theorem C2_three_state_correctness (sourceType : String) (st : McpEnabledState)
    (name : String) :
    ((sourceType = "mcpjson" ∨ sourceType = "plugin") →
      computeServerState sourceType st name =
        (if name ∈ st.enabledMcpjsonServers ∧ name ∈ st.disabledMcpjsonServers then
          "runtime-disabled"
        else if name ∈ st.disabledMcpjsonServers then "disabled"
        else "enabled"))
    ∧ (sourceType = "direct" →
      computeServerState sourceType st name =
        (if name ∈ st.disabledMcpServers then "disabled" else "enabled")) := by
  constructor
  · intro hs
    have hnd : ¬ sourceType = "direct" := by
      rcases hs with h | h <;> subst h <;> simp
    unfold computeServerState
    rw [if_neg hnd]
    by_cases he : name ∈ st.enabledMcpjsonServers <;>
      by_cases hdis : name ∈ st.disabledMcpjsonServers <;>
        simp [he, hdis]
  · intro hs
    subst hs
    unfold computeServerState
    by_cases hdm : name ∈ st.disabledMcpServers <;> simp [hdm]

/-- Witness for C2 at a concrete state: a plugin entry listed in both
overlays is runtime-disabled, and a direct entry listed in
disabledMcpServers is disabled. -/
theorem C2_witness :
    computeServerState "plugin"
      ⟨["a"], ["a", "b"], []⟩ "a" = "runtime-disabled"
    ∧ computeServerState "direct" ⟨["a"], ["a", "b"], ["d"]⟩ "d" = "disabled" := by
  constructor
  · rw [(C2_three_state_correctness "plugin" ⟨["a"], ["a", "b"], []⟩ "a").1 (Or.inr rfl)]
    simp
  · rw [(C2_three_state_correctness "direct" ⟨["a"], ["a", "b"], ["d"]⟩ "d").2 rfl]
    simp

/-! ## Claim C4 -/

/-- C4: plugin non-override and project/local precedence. (i) A plugin entry
never overwrites an existing user-scope entry: whatever the user phases bound
a name to is still its binding after the plugin phase. (ii) A local-scope
definition wins over every earlier source. (iii) A project-scope definition
wins over user and plugin entries when no local definition of the name
exists. -/
theorem C4_plugin_non_override_and_precedence
    (userMcpjson userDirect : List (String × Json))
    (pluginServers : List PluginServerEntry)
    (projectServers localServers : List (String × Json))
    (c : String) (hasProjectPath : Bool) :
    (∀ name srv,
      lookupKV (userDirectPhase (userMcpjsonPhase userMcpjson) userDirect) name = some srv →
      lookupKV (pluginPhase (userDirectPhase (userMcpjsonPhase userMcpjson) userDirect)
        pluginServers) name = some srv)
    ∧ (∀ name cfg, (localServers.map Prod.fst).Nodup →
        lookupKV localServers name = some cfg → hasProjectPath = true →
        lookupKV (mergeServersMap userMcpjson userDirect pluginServers projectServers
          localServers (some c) hasProjectPath) name
          = some (create_mcp_server cfg "mcpjson" "local" (c ++ "/.mcp.json") true))
    ∧ (∀ name cfg, (projectServers.map Prod.fst).Nodup →
        lookupKV projectServers name = some cfg → name ∉ localServers.map Prod.fst →
        lookupKV (mergeServersMap userMcpjson userDirect pluginServers projectServers
          localServers (some c) hasProjectPath) name
          = some (create_mcp_server cfg "direct" "project"
              ("~/.claude.json .projects[" ++ c ++ "]") false)) := by
  refine ⟨?_, ?_, ?_⟩
  · intro name srv h
    exact lookupKV_foldl_entry_some PluginServerEntry.name
      (fun e => create_mcp_server (Json.obj e.config) "plugin" ("plugin-" ++ e.pluginScope)
        ("Plugin: " ++ e.pluginName ++ " (" ++ e.pluginScope ++ ")") true) _ _ _ _ h
  · intro name cfg hnd hloc hpp
    subst hpp
    unfold mergeServersMap projectLocalPhase
    simp only [if_true]
    exact lookupKV_foldl_insert_nodup
      (fun p => create_mcp_server p.2 "mcpjson" "local" (c ++ "/.mcp.json") true)
      _ _ _ _ hnd hloc
  · intro name cfg hnd hproj hnl
    unfold mergeServersMap projectLocalPhase
    have hbase : lookupKV (projectServers.foldl
        (fun m p => insertKV m p.1
          (create_mcp_server p.2 "direct" "project"
            ("~/.claude.json .projects[" ++ c ++ "]") false))
        (pluginPhase (userDirectPhase (userMcpjsonPhase userMcpjson) userDirect)
          pluginServers)) name
        = some (create_mcp_server cfg "direct" "project"
            ("~/.claude.json .projects[" ++ c ++ "]") false) :=
      lookupKV_foldl_insert_nodup
        (fun p => create_mcp_server p.2 "direct" "project"
          ("~/.claude.json .projects[" ++ c ++ "]") false) _ _ _ _ hnd hproj
    cases hasProjectPath with
    | false => exact hbase
    | true =>
        simp only [if_true]
        rw [lookupKV_foldl_insert_not_mem Prod.fst _ _ _ _ hnl]
        exact hbase

/-- Witness for C4: a name defined at user and local scope resolves to the
local definition; a plugin server does not displace a user entry. -/
theorem C4_witness :
    lookupKV (mergeServersMap [("s", Json.num 1)] [] [] [] [("s", Json.num 5)]
      (some "/p") true) "s"
      = some (create_mcp_server (Json.num 5) "mcpjson" "local" "/p/.mcp.json" true)
    ∧ lookupKV (pluginPhase (userDirectPhase (userMcpjsonPhase [("s", Json.num 1)]) [])
        [⟨"s", [], "plug", "user"⟩]) "s"
      = some (create_mcp_server (Json.num 1) "mcpjson" "user" "~/.mcp.json" true) := by
  constructor
  · exact (C4_plugin_non_override_and_precedence [("s", Json.num 1)] [] [] []
      [("s", Json.num 5)] "/p" true).2.1 "s" (Json.num 5) (by simp) rfl rfl
  · exact (C4_plugin_non_override_and_precedence [("s", Json.num 1)] [] [⟨"s", [], "plug", "user"⟩] []
      [] "/p" true).1 "s" _ rfl

/-! ## Toggling (commands.rs: toggle_mcp_server_state, lines 1021 to 1085) -/

/-- The get_mut(key).and_then(as_array_mut) pattern: rewrite the value at a
key only when it currently holds an array, otherwise leave the object
unchanged. -/
def modifyIfArray (l : List (String × Json)) (k : String) (f : List Json → List Json) :
    List (String × Json) :=
  match lookupKV l k with
  | some (Json.arr a) => insertKV l k (Json.arr (f a))
  | _ => l

/-- toggle_mcp_server_state as a function of the content of the resolved
settings file: ensure both overlay keys exist, remove the name from both
arrays, then re-insert it into exactly one. Fails when the settings value is
not an object. -/
def toggle_mcp_server_state (settings : Json) (serverName : String) (enabled : Bool) :
    Except String Json :=
  match settings with
  | Json.obj obj0 =>
      let obj1 := entryOrInsert obj0 "enabledMcpjsonServers" (Json.arr [])
      let obj2 := entryOrInsert obj1 "disabledMcpjsonServers" (Json.arr [])
      let obj3 := modifyIfArray obj2 "enabledMcpjsonServers" (fun a =>
        let a := a.filter (fun v => v.asStr != some serverName)
        if enabled then a ++ [Json.str serverName] else a)
      let obj4 := modifyIfArray obj3 "disabledMcpjsonServers" (fun a =>
        let a := a.filter (fun v => v.asStr != some serverName)
        if !enabled then a ++ [Json.str serverName] else a)
      Except.ok (Json.obj obj4)
  | _ => Except.error "Settings is not an object"

/-- Number of occurrences of a name in the array stored at a key (0 when the
key is absent or does not hold an array). -/
def overlayCount (settings : Json) (k name : String) : Nat :=
  match settings.lookupJ k with
  | some (Json.arr a) => (a.filter (fun v => v.asStr == some name)).length
  | _ => 0

/-- Whether a name is a member of the array held in an optional value (false
when absent or not an array). -/
def arrMem (o : Option Json) (name : String) : Bool :=
  match o with
  | some (Json.arr a) => a.any (fun v => v.asStr == some name)
  | _ => false

/-- Whether a name is a member of the array stored at a key (false when the
key is absent or does not hold an array). -/
def overlayHas (settings : Json) (k name : String) : Bool :=
  arrMem (settings.lookupJ k) name

theorem insertKV_lookup_self_eq {α : Type} (l : List (String × α)) (k : String) (v : α)
    (h : lookupKV l k = some v) : insertKV l k v = l := by
  induction l with
  | nil => simp [lookupKV] at h
  | cons hd tl ih =>
      obtain ⟨k1, v1⟩ := hd
      by_cases h1 : k1 = k
      · subst h1
        simp [lookupKV] at h
        simp [insertKV, h]
      · simp [lookupKV, h1] at h
        simp [insertKV, h1, ih h]

theorem lookupKV_modifyIfArray_ne (l : List (String × Json)) (k k2 : String)
    (f : List Json → List Json) (h : k2 ≠ k) :
    lookupKV (modifyIfArray l k f) k2 = lookupKV l k2 := by
  unfold modifyIfArray
  cases hv : lookupKV l k with
  | none => rfl
  | some v =>
      cases v with
      | arr a => exact lookupKV_insertKV_ne _ _ _ _ h
      | null => rfl
      | bool b => rfl
      | num n => rfl
      | str s => rfl
      | obj o => rfl

theorem lookupKV_modifyIfArray_arr (l : List (String × Json)) (k : String)
    (f : List Json → List Json) (a : List Json) (h : lookupKV l k = some (Json.arr a)) :
    lookupKV (modifyIfArray l k f) k = some (Json.arr (f a)) := by
  unfold modifyIfArray
  rw [h]
  exact lookupKV_insertKV_self _ _ _

theorem filter_name_of_filter_ne (a : List Json) (name : String) :
    ((a.filter (fun v => v.asStr != some name)).filter
      (fun v => v.asStr == some name)) = [] := by
  induction a with
  | nil => rfl
  | cons hd tl ih =>
      by_cases h : hd.asStr = some name
      · have hb : (hd.asStr != some name) = false := by simp [h]
        simp [List.filter_cons, hb, ih]
      · have hb : (hd.asStr != some name) = true := by simp [h]
        have hb2 : (hd.asStr == some name) = false := by
          rw [beq_eq_false_iff_ne]
          exact h
        simp [List.filter_cons, hb, hb2, ih]

theorem filter_ne_name_idem (a : List Json) (name : String) :
    ((a.filter (fun v => v.asStr != some name)).filter
      (fun v => v.asStr != some name)) = a.filter (fun v => v.asStr != some name) := by
  induction a with
  | nil => rfl
  | cons hd tl ih =>
      by_cases h : hd.asStr = some name
      · have hb : (hd.asStr != some name) = false := by simp [h]
        simp [List.filter_cons, hb, ih]
      · have hb : (hd.asStr != some name) = true := by simp [h]
        simp [List.filter_cons, hb, ih]

theorem any_name_filter_ne (a : List Json) (name other : String) (h : other ≠ name) :
    ((a.filter (fun v => v.asStr != some name)).any (fun v => v.asStr == some other))
      = a.any (fun v => v.asStr == some other) := by
  induction a with
  | nil => rfl
  | cons hd tl ih =>
      by_cases hh : hd.asStr = some name
      · have hb : (hd.asStr != some name) = false := by simp [hh]
        have hno : (hd.asStr == some other) = false := by
          rw [hh, beq_eq_false_iff_ne]
          simp [Ne.symm h]
        simp [List.filter_cons, hb, List.any_cons, hno, ih]
      · have hb : (hd.asStr != some name) = true := by simp [hh]
        simp [List.filter_cons, hb, List.any_cons, ih]

theorem entryOrInsert_present_eq {α : Type} (l : List (String × α)) (k : String) (v w : α)
    (h : lookupKV l k = some w) : entryOrInsert l k v = l := by
  simp [entryOrInsert, h]

theorem modifyIfArray_eq_insert (l : List (String × Json)) (k : String)
    (f : List Json → List Json) (a : List Json) (h : lookupKV l k = some (Json.arr a)) :
    modifyIfArray l k f = insertKV l k (Json.arr (f a)) := by
  unfold modifyIfArray
  rw [h]

theorem filter_str_name_self (name : String) :
    ([Json.str name].filter (fun v => v.asStr == some name)) = [Json.str name] := by
  simp [Json.asStr]

theorem filter_str_name_ne (name : String) :
    ([Json.str name].filter (fun v => v.asStr != some name)) = [] := by
  simp [Json.asStr]

/-! ## Claim C5 -/

/-- C5: toggle_mcp_server_state is idempotent and leaves the toggled name in
exactly one overlay array. Assuming the settings value is a well-formed
settings object (each overlay key, when present, holds an array), a second
call with the same arguments returns the first result unchanged, the name
occurs exactly once in the array it was toggled into and zero times in the
other. -/
theorem C5_toggle_idempotent (settings s1 : Json) (name : String) (enabled : Bool)
    (h : toggle_mcp_server_state settings name enabled = Except.ok s1)
    (hE : ∀ v, settings.lookupJ "enabledMcpjsonServers" = some v → ∃ a, v = Json.arr a)
    (hD : ∀ v, settings.lookupJ "disabledMcpjsonServers" = some v → ∃ a, v = Json.arr a) :
    toggle_mcp_server_state s1 name enabled = Except.ok s1
    ∧ overlayCount s1 "enabledMcpjsonServers" name = (if enabled then 1 else 0)
    ∧ overlayCount s1 "disabledMcpjsonServers" name = (if enabled then 0 else 1) := by
  cases settings with
  | null => simp [toggle_mcp_server_state] at h
  | bool b => simp [toggle_mcp_server_state] at h
  | num n => simp [toggle_mcp_server_state] at h
  | str s => simp [toggle_mcp_server_state] at h
  | arr a => simp [toggle_mcp_server_state] at h
  | obj l =>
    have hne2 : ("enabledMcpjsonServers" : String) ≠ "disabledMcpjsonServers" := by decide
    have hne : ("disabledMcpjsonServers" : String) ≠ "enabledMcpjsonServers" := by decide
    obtain ⟨a0, ha0⟩ : ∃ a0,
        lookupKV (entryOrInsert (entryOrInsert l "enabledMcpjsonServers" (Json.arr []))
          "disabledMcpjsonServers" (Json.arr [])) "enabledMcpjsonServers"
          = some (Json.arr a0) := by
      cases hv : lookupKV l "enabledMcpjsonServers" with
      | none =>
          refine ⟨[], ?_⟩
          rw [lookupKV_entryOrInsert_ne _ _ _ _ hne2,
            lookupKV_entryOrInsert_absent _ _ _ hv]
      | some v =>
          obtain ⟨a, rfl⟩ := hE v (by simpa [Json.lookupJ] using hv)
          refine ⟨a, ?_⟩
          rw [lookupKV_entryOrInsert_ne _ _ _ _ hne2,
            lookupKV_entryOrInsert_present _ _ _ _ hv]
    obtain ⟨b0, hb0⟩ : ∃ b0,
        lookupKV (entryOrInsert (entryOrInsert l "enabledMcpjsonServers" (Json.arr []))
          "disabledMcpjsonServers" (Json.arr [])) "disabledMcpjsonServers"
          = some (Json.arr b0) := by
      cases hv : lookupKV l "disabledMcpjsonServers" with
      | none =>
          refine ⟨[], ?_⟩
          rw [lookupKV_entryOrInsert_absent]
          rw [lookupKV_entryOrInsert_ne _ _ _ _ hne, hv]
      | some v =>
          obtain ⟨a, rfl⟩ := hD v (by simpa [Json.lookupJ] using hv)
          refine ⟨a, ?_⟩
          rw [lookupKV_entryOrInsert_present]
          rw [lookupKV_entryOrInsert_ne _ _ _ _ hne, hv]
    have hres : toggle_mcp_server_state (Json.obj l) name enabled
        = Except.ok (Json.obj (modifyIfArray (modifyIfArray
            (entryOrInsert (entryOrInsert l "enabledMcpjsonServers" (Json.arr []))
              "disabledMcpjsonServers" (Json.arr []))
            "enabledMcpjsonServers"
            (fun a => if enabled then
              (a.filter (fun v => v.asStr != some name)) ++ [Json.str name]
              else a.filter (fun v => v.asStr != some name)))
            "disabledMcpjsonServers"
            (fun a => if !enabled then
              (a.filter (fun v => v.asStr != some name)) ++ [Json.str name]
              else a.filter (fun v => v.asStr != some name)))) := rfl
    rw [hres] at h
    have hmod1 : modifyIfArray
        (entryOrInsert (entryOrInsert l "enabledMcpjsonServers" (Json.arr []))
          "disabledMcpjsonServers" (Json.arr []))
        "enabledMcpjsonServers"
        (fun a => if enabled then
          (a.filter (fun v => v.asStr != some name)) ++ [Json.str name]
          else a.filter (fun v => v.asStr != some name))
        = insertKV (entryOrInsert (entryOrInsert l "enabledMcpjsonServers" (Json.arr []))
            "disabledMcpjsonServers" (Json.arr []))
          "enabledMcpjsonServers"
          (Json.arr (if enabled then
            (a0.filter (fun v => v.asStr != some name)) ++ [Json.str name]
            else a0.filter (fun v => v.asStr != some name))) := by
      unfold modifyIfArray
      rw [ha0]
    rw [hmod1] at h
    have hb0i : lookupKV (insertKV (entryOrInsert (entryOrInsert l "enabledMcpjsonServers"
          (Json.arr [])) "disabledMcpjsonServers" (Json.arr []))
        "enabledMcpjsonServers"
        (Json.arr (if enabled then
          (a0.filter (fun v => v.asStr != some name)) ++ [Json.str name]
          else a0.filter (fun v => v.asStr != some name))))
        "disabledMcpjsonServers" = some (Json.arr b0) := by
      rw [lookupKV_insertKV_ne _ _ _ _ hne]
      exact hb0
    have hmod2 : modifyIfArray (insertKV (entryOrInsert (entryOrInsert l
          "enabledMcpjsonServers" (Json.arr [])) "disabledMcpjsonServers" (Json.arr []))
        "enabledMcpjsonServers"
        (Json.arr (if enabled then
          (a0.filter (fun v => v.asStr != some name)) ++ [Json.str name]
          else a0.filter (fun v => v.asStr != some name))))
        "disabledMcpjsonServers"
        (fun a => if !enabled then
          (a.filter (fun v => v.asStr != some name)) ++ [Json.str name]
          else a.filter (fun v => v.asStr != some name))
        = insertKV (insertKV (entryOrInsert (entryOrInsert l
            "enabledMcpjsonServers" (Json.arr [])) "disabledMcpjsonServers" (Json.arr []))
          "enabledMcpjsonServers"
          (Json.arr (if enabled then
            (a0.filter (fun v => v.asStr != some name)) ++ [Json.str name]
            else a0.filter (fun v => v.asStr != some name))))
          "disabledMcpjsonServers"
          (Json.arr (if !enabled then
            (b0.filter (fun v => v.asStr != some name)) ++ [Json.str name]
            else b0.filter (fun v => v.asStr != some name))) := by
      unfold modifyIfArray
      rw [hb0i]
    rw [hmod2] at h
    simp only [Except.ok.injEq] at h
    subst h
    set eNew : List Json := (if enabled then
        (a0.filter (fun v => v.asStr != some name)) ++ [Json.str name]
        else a0.filter (fun v => v.asStr != some name)) with heNew
    set dNew : List Json := (if !enabled then
        (b0.filter (fun v => v.asStr != some name)) ++ [Json.str name]
        else b0.filter (fun v => v.asStr != some name)) with hdNew
    set base : List (String × Json) := entryOrInsert (entryOrInsert l
        "enabledMcpjsonServers" (Json.arr [])) "disabledMcpjsonServers" (Json.arr [])
      with hbase
    have hs1E : lookupKV (insertKV (insertKV base "enabledMcpjsonServers" (Json.arr eNew))
        "disabledMcpjsonServers" (Json.arr dNew)) "enabledMcpjsonServers"
        = some (Json.arr eNew) := by
      rw [lookupKV_insertKV_ne _ _ _ _ hne2]
      exact lookupKV_insertKV_self _ _ _
    have hs1D : lookupKV (insertKV (insertKV base "enabledMcpjsonServers" (Json.arr eNew))
        "disabledMcpjsonServers" (Json.arr dNew)) "disabledMcpjsonServers"
        = some (Json.arr dNew) :=
      lookupKV_insertKV_self _ _ _
    have heFix : eNew.filter (fun v => v.asStr != some name)
        = a0.filter (fun v => v.asStr != some name) := by
      rw [heNew]
      cases enabled with
      | true =>
          simp only [if_true, List.filter_append, filter_ne_name_idem,
            filter_str_name_ne, List.append_nil]
      | false =>
          simp only [Bool.false_eq_true, if_false, filter_ne_name_idem]
    have hdFix : dNew.filter (fun v => v.asStr != some name)
        = b0.filter (fun v => v.asStr != some name) := by
      rw [hdNew]
      cases enabled with
      | true =>
          simp only [Bool.not_true, Bool.false_eq_true, if_false, filter_ne_name_idem]
      | false =>
          simp only [Bool.not_false, if_true, List.filter_append, filter_ne_name_idem,
            filter_str_name_ne, List.append_nil]
    refine ⟨?_, ?_, ?_⟩
    · have hstep : toggle_mcp_server_state (Json.obj (insertKV (insertKV base
          "enabledMcpjsonServers" (Json.arr eNew)) "disabledMcpjsonServers"
          (Json.arr dNew))) name enabled
          = Except.ok (Json.obj (modifyIfArray (modifyIfArray
              (entryOrInsert (entryOrInsert (insertKV (insertKV base
                "enabledMcpjsonServers" (Json.arr eNew)) "disabledMcpjsonServers"
                (Json.arr dNew)) "enabledMcpjsonServers" (Json.arr []))
                "disabledMcpjsonServers" (Json.arr []))
              "enabledMcpjsonServers"
              (fun a => if enabled then
                (a.filter (fun v => v.asStr != some name)) ++ [Json.str name]
                else a.filter (fun v => v.asStr != some name)))
              "disabledMcpjsonServers"
              (fun a => if !enabled then
                (a.filter (fun v => v.asStr != some name)) ++ [Json.str name]
                else a.filter (fun v => v.asStr != some name)))) := rfl
      rw [hstep]
      rw [entryOrInsert_present_eq _ _ _ _ hs1E]
      rw [entryOrInsert_present_eq _ _ _ _ hs1D]
      have hm1 : modifyIfArray (insertKV (insertKV base "enabledMcpjsonServers"
          (Json.arr eNew)) "disabledMcpjsonServers" (Json.arr dNew))
          "enabledMcpjsonServers"
          (fun a => if enabled then
            (a.filter (fun v => v.asStr != some name)) ++ [Json.str name]
            else a.filter (fun v => v.asStr != some name))
          = insertKV (insertKV (insertKV base "enabledMcpjsonServers" (Json.arr eNew))
              "disabledMcpjsonServers" (Json.arr dNew)) "enabledMcpjsonServers"
            (Json.arr (if enabled then
              (eNew.filter (fun v => v.asStr != some name)) ++ [Json.str name]
              else eNew.filter (fun v => v.asStr != some name))) :=
        modifyIfArray_eq_insert _ _ _ _ hs1E
      rw [hm1, heFix, ← heNew, insertKV_lookup_self_eq _ _ _ hs1E]
      have hm2 : modifyIfArray (insertKV (insertKV base "enabledMcpjsonServers"
          (Json.arr eNew)) "disabledMcpjsonServers" (Json.arr dNew))
          "disabledMcpjsonServers"
          (fun a => if !enabled then
            (a.filter (fun v => v.asStr != some name)) ++ [Json.str name]
            else a.filter (fun v => v.asStr != some name))
          = insertKV (insertKV (insertKV base "enabledMcpjsonServers" (Json.arr eNew))
              "disabledMcpjsonServers" (Json.arr dNew)) "disabledMcpjsonServers"
            (Json.arr (if !enabled then
              (dNew.filter (fun v => v.asStr != some name)) ++ [Json.str name]
              else dNew.filter (fun v => v.asStr != some name))) :=
        modifyIfArray_eq_insert _ _ _ _ hs1D
      rw [hm2, hdFix, ← hdNew, insertKV_lookup_self_eq _ _ _ hs1D]
    · show overlayCount _ _ _ = _
      unfold overlayCount
      simp only [Json.lookupJ]
      rw [hs1E, heNew]
      cases enabled with
      | true =>
          simp only [if_true, List.filter_append, filter_name_of_filter_ne,
            filter_str_name_self, List.nil_append, List.length_cons, List.length_nil]
      | false =>
          simp only [Bool.false_eq_true, if_false, filter_name_of_filter_ne,
            List.length_nil]
    · show overlayCount _ _ _ = _
      unfold overlayCount
      simp only [Json.lookupJ]
      rw [hs1D, hdNew]
      cases enabled with
      | true =>
          simp only [Bool.not_true, Bool.false_eq_true, if_false, if_true,
            filter_name_of_filter_ne, List.length_nil]
      | false =>
          simp only [Bool.not_false, if_true, Bool.false_eq_true, if_false,
            List.filter_append, filter_name_of_filter_ne, filter_str_name_self,
            List.nil_append, List.length_cons, List.length_nil]

/-- Witness for C5 at a concrete input: toggling srv to enabled on an empty
settings object. -/
theorem C5_witness :
    toggle_mcp_server_state
      (Json.obj [("enabledMcpjsonServers", Json.arr [Json.str "srv"]),
        ("disabledMcpjsonServers", Json.arr [])]) "srv" true
      = Except.ok (Json.obj [("enabledMcpjsonServers", Json.arr [Json.str "srv"]),
        ("disabledMcpjsonServers", Json.arr [])])
    ∧ overlayCount (Json.obj [("enabledMcpjsonServers", Json.arr [Json.str "srv"]),
        ("disabledMcpjsonServers", Json.arr [])]) "enabledMcpjsonServers" "srv" = 1
    ∧ overlayCount (Json.obj [("enabledMcpjsonServers", Json.arr [Json.str "srv"]),
        ("disabledMcpjsonServers", Json.arr [])]) "disabledMcpjsonServers" "srv" = 0 :=
  C5_toggle_idempotent (Json.obj []) _ "srv" true rfl
    (by simp [Json.lookupJ, lookupKV]) (by simp [Json.lookupJ, lookupKV])

/-! ## Claim C10 -/

theorem modifyIfArray_eq_self (l : List (String × Json)) (k : String)
    (f : List Json → List Json) (h : ∀ a, lookupKV l k ≠ some (Json.arr a)) :
    modifyIfArray l k f = l := by
  unfold modifyIfArray
  cases hv : lookupKV l k with
  | none => rfl
  | some v =>
      cases v with
      | arr a => exact absurd hv (h a)
      | null => rfl
      | bool b => rfl
      | num n => rfl
      | str s => rfl
      | obj o => rfl

/-- What toggling writes at one overlay key, as a function of the prior
value at that key: absent keys become a fresh array, arrays are rewritten by
remove-then-conditionally-reinsert, non-array values are left alone. -/
def toggledArr (o : Option Json) (put : Bool) (name : String) : Option Json :=
  match o with
  | none => some (Json.arr (if put then [Json.str name] else []))
  | some (Json.arr a) =>
      some (Json.arr (if put then
        (a.filter (fun v => v.asStr != some name)) ++ [Json.str name]
        else a.filter (fun v => v.asStr != some name)))
  | some v => some v

theorem toggle_lookup_characterization (l : List (String × Json)) (name : String)
    (enabled : Bool) (s1 : Json)
    (h : toggle_mcp_server_state (Json.obj l) name enabled = Except.ok s1) :
    s1.lookupJ "enabledMcpjsonServers"
      = toggledArr (lookupKV l "enabledMcpjsonServers") enabled name
    ∧ s1.lookupJ "disabledMcpjsonServers"
      = toggledArr (lookupKV l "disabledMcpjsonServers") (!enabled) name
    ∧ ∀ k, k ≠ "enabledMcpjsonServers" → k ≠ "disabledMcpjsonServers" →
        s1.lookupJ k = lookupKV l k := by
  have hne2 : ("enabledMcpjsonServers" : String) ≠ "disabledMcpjsonServers" := by decide
  have hne : ("disabledMcpjsonServers" : String) ≠ "enabledMcpjsonServers" := by decide
  have hres : toggle_mcp_server_state (Json.obj l) name enabled
      = Except.ok (Json.obj (modifyIfArray (modifyIfArray
          (entryOrInsert (entryOrInsert l "enabledMcpjsonServers" (Json.arr []))
            "disabledMcpjsonServers" (Json.arr []))
          "enabledMcpjsonServers"
          (fun a => if enabled then
            (a.filter (fun v => v.asStr != some name)) ++ [Json.str name]
            else a.filter (fun v => v.asStr != some name)))
          "disabledMcpjsonServers"
          (fun a => if !enabled then
            (a.filter (fun v => v.asStr != some name)) ++ [Json.str name]
            else a.filter (fun v => v.asStr != some name)))) := rfl
  rw [hres] at h
  simp only [Except.ok.injEq] at h
  subst h
  refine ⟨?_, ?_, ?_⟩
  · simp only [Json.lookupJ]
    rw [lookupKV_modifyIfArray_ne _ _ _ _ hne2]
    cases hv : lookupKV l "enabledMcpjsonServers" with
    | none =>
        have h2 : lookupKV (entryOrInsert (entryOrInsert l "enabledMcpjsonServers"
            (Json.arr [])) "disabledMcpjsonServers" (Json.arr []))
            "enabledMcpjsonServers" = some (Json.arr []) := by
          rw [lookupKV_entryOrInsert_ne _ _ _ _ hne2,
            lookupKV_entryOrInsert_absent _ _ _ hv]
        rw [lookupKV_modifyIfArray_arr _ _ _ _ h2]
        cases enabled with
        | true => simp [toggledArr]
        | false => simp [toggledArr]
    | some v =>
        have h2 : lookupKV (entryOrInsert (entryOrInsert l "enabledMcpjsonServers"
            (Json.arr [])) "disabledMcpjsonServers" (Json.arr []))
            "enabledMcpjsonServers" = some v := by
          rw [lookupKV_entryOrInsert_ne _ _ _ _ hne2,
            lookupKV_entryOrInsert_present _ _ _ _ hv]
        cases v with
        | arr a =>
            rw [lookupKV_modifyIfArray_arr _ _ _ _ h2]
            rfl
        | null =>
            rw [modifyIfArray_eq_self _ _ _ (by intro a2 ha2; rw [h2] at ha2; simp at ha2), h2]
            rfl
        | bool b =>
            rw [modifyIfArray_eq_self _ _ _ (by intro a2 ha2; rw [h2] at ha2; simp at ha2), h2]
            rfl
        | num n =>
            rw [modifyIfArray_eq_self _ _ _ (by intro a2 ha2; rw [h2] at ha2; simp at ha2), h2]
            rfl
        | str s =>
            rw [modifyIfArray_eq_self _ _ _ (by intro a2 ha2; rw [h2] at ha2; simp at ha2), h2]
            rfl
        | obj o =>
            rw [modifyIfArray_eq_self _ _ _ (by intro a2 ha2; rw [h2] at ha2; simp at ha2), h2]
            rfl
  · simp only [Json.lookupJ]
    cases hv : lookupKV l "disabledMcpjsonServers" with
    | none =>
        have h2 : lookupKV (modifyIfArray (entryOrInsert (entryOrInsert l
            "enabledMcpjsonServers" (Json.arr [])) "disabledMcpjsonServers" (Json.arr []))
            "enabledMcpjsonServers"
            (fun a => if enabled then
              (a.filter (fun v => v.asStr != some name)) ++ [Json.str name]
              else a.filter (fun v => v.asStr != some name)))
            "disabledMcpjsonServers" = some (Json.arr []) := by
          rw [lookupKV_modifyIfArray_ne _ _ _ _ hne]
          rw [lookupKV_entryOrInsert_absent]
          rw [lookupKV_entryOrInsert_ne _ _ _ _ hne, hv]
        rw [lookupKV_modifyIfArray_arr _ _ _ _ h2]
        cases enabled with
        | true => simp [toggledArr]
        | false => simp [toggledArr]
    | some v =>
        have h2 : lookupKV (modifyIfArray (entryOrInsert (entryOrInsert l
            "enabledMcpjsonServers" (Json.arr [])) "disabledMcpjsonServers" (Json.arr []))
            "enabledMcpjsonServers"
            (fun a => if enabled then
              (a.filter (fun v => v.asStr != some name)) ++ [Json.str name]
              else a.filter (fun v => v.asStr != some name)))
            "disabledMcpjsonServers" = some v := by
          rw [lookupKV_modifyIfArray_ne _ _ _ _ hne]
          rw [lookupKV_entryOrInsert_present]
          rw [lookupKV_entryOrInsert_ne _ _ _ _ hne, hv]
        cases v with
        | arr a =>
            rw [lookupKV_modifyIfArray_arr _ _ _ _ h2]
            rfl
        | null =>
            rw [modifyIfArray_eq_self _ _ _ (by intro a2 ha2; rw [h2] at ha2; simp at ha2), h2]
            rfl
        | bool b =>
            rw [modifyIfArray_eq_self _ _ _ (by intro a2 ha2; rw [h2] at ha2; simp at ha2), h2]
            rfl
        | num n =>
            rw [modifyIfArray_eq_self _ _ _ (by intro a2 ha2; rw [h2] at ha2; simp at ha2), h2]
            rfl
        | str s =>
            rw [modifyIfArray_eq_self _ _ _ (by intro a2 ha2; rw [h2] at ha2; simp at ha2), h2]
            rfl
        | obj o =>
            rw [modifyIfArray_eq_self _ _ _ (by intro a2 ha2; rw [h2] at ha2; simp at ha2), h2]
            rfl
  · intro k h1 h2
    simp only [Json.lookupJ]
    rw [lookupKV_modifyIfArray_ne _ _ _ _ h2,
      lookupKV_modifyIfArray_ne _ _ _ _ h1,
      lookupKV_entryOrInsert_ne _ _ _ _ h2,
      lookupKV_entryOrInsert_ne _ _ _ _ h1]

theorem arrMem_toggledArr (o : Option Json) (put : Bool) (name other : String)
    (h : other ≠ name) : arrMem (toggledArr o put name) other = arrMem o other := by
  have hb : ((Json.str name).asStr == some other) = false := by
    rw [beq_eq_false_iff_ne]
    simp [Json.asStr, Ne.symm h]
  cases o with
  | none =>
      cases put with
      | true => simp [toggledArr, arrMem, hb]
      | false => simp [toggledArr, arrMem]
  | some v =>
      cases v with
      | arr a =>
          cases put with
          | true =>
              show (((a.filter (fun v => v.asStr != some name)) ++ [Json.str name]).any
                (fun v => v.asStr == some other)) = _
              rw [List.any_append, any_name_filter_ne a name other h]
              simp [hb, arrMem]
          | false =>
              show ((a.filter (fun v => v.asStr != some name)).any
                (fun v => v.asStr == some other)) = _
              rw [any_name_filter_ne a name other h]
              rfl
      | null => rfl
      | bool b => rfl
      | num n => rfl
      | str s => rfl
      | obj ob => rfl

/-- C10: frame property of toggling. A successful toggle_mcp_server_state
call changes nothing but the two overlay keys of the target settings object:
every other top-level key keeps its prior value, and every server name other
than the toggled one keeps its prior membership in both overlay arrays. -/
theorem C10_toggle_frame (settings s1 : Json) (name : String) (enabled : Bool)
    (h : toggle_mcp_server_state settings name enabled = Except.ok s1) :
    (∀ k, k ≠ "enabledMcpjsonServers" → k ≠ "disabledMcpjsonServers" →
      s1.lookupJ k = settings.lookupJ k)
    ∧ ∀ other, other ≠ name →
        overlayHas s1 "enabledMcpjsonServers" other
          = overlayHas settings "enabledMcpjsonServers" other
        ∧ overlayHas s1 "disabledMcpjsonServers" other
          = overlayHas settings "disabledMcpjsonServers" other := by
  cases settings with
  | null => simp [toggle_mcp_server_state] at h
  | bool b => simp [toggle_mcp_server_state] at h
  | num n => simp [toggle_mcp_server_state] at h
  | str s => simp [toggle_mcp_server_state] at h
  | arr a => simp [toggle_mcp_server_state] at h
  | obj l =>
      obtain ⟨hE, hD, hol⟩ := toggle_lookup_characterization l name enabled s1 h
      refine ⟨?_, ?_⟩
      · intro k h1 h2
        rw [hol k h1 h2]
        rfl
      · intro other ho
        refine ⟨?_, ?_⟩
        · unfold overlayHas
          rw [hE, arrMem_toggledArr _ _ _ _ ho]
          rfl
        · unfold overlayHas
          rw [hD, arrMem_toggledArr _ _ _ _ ho]
          rfl

/-- Witness for C10 at a concrete input: disabling srv leaves the foreign
key x and the membership of a different name in the enabled array intact. -/
theorem C10_witness :
    Json.lookupJ (Json.obj [("x", Json.num 7),
        ("enabledMcpjsonServers", Json.arr [Json.str "other"]),
        ("disabledMcpjsonServers", Json.arr [Json.str "srv"])]) "x"
      = Json.lookupJ (Json.obj [("x", Json.num 7),
        ("enabledMcpjsonServers", Json.arr [Json.str "other"])]) "x"
    ∧ overlayHas (Json.obj [("x", Json.num 7),
        ("enabledMcpjsonServers", Json.arr [Json.str "other"]),
        ("disabledMcpjsonServers", Json.arr [Json.str "srv"])])
        "enabledMcpjsonServers" "other"
      = overlayHas (Json.obj [("x", Json.num 7),
        ("enabledMcpjsonServers", Json.arr [Json.str "other"])])
        "enabledMcpjsonServers" "other" :=
  ⟨(C10_toggle_frame (Json.obj [("x", Json.num 7),
      ("enabledMcpjsonServers", Json.arr [Json.str "other"])]) _ "srv" false rfl).1
    "x" (by decide) (by decide),
   ((C10_toggle_frame (Json.obj [("x", Json.num 7),
      ("enabledMcpjsonServers", Json.arr [Json.str "other"])]) _ "srv" false rfl).2
    "other" (by decide)).1⟩

/-! ## Profile store (commands.rs: create_config, delete_config,
set_using_config, reset_to_original_config) -/

/-- ConfigStore struct. -/
structure ConfigStore where
  id : String
  title : String
  createdAt : Nat
  settings : Json
  isUsing : Bool

/-- NotificationSettings struct. -/
structure NotificationSettings where
  enable : Bool
  enabledHooks : List String

/-- StoresData struct: the content of stores.json. -/
structure StoresData where
  configs : List ConfigStore
  distinctId : Option String
  notification : Option NotificationSettings

/-- The state touched by the profile commands: the stores.json file and the
live .claude/settings.json file, each as an existence flag plus parsed
content. -/
structure ProfileWorld where
  storesFileExists : Bool
  stores : StoresData
  liveExists : Bool
  live : Json

/-- read_stores_file: a missing file parses as the default StoresData. -/
def readStores (w : ProfileWorld) : StoresData :=
  if w.storesFileExists then w.stores else ⟨[], none, none⟩

/-- read_json_file on the live settings file: empty object when absent. -/
def readLive (w : ProfileWorld) : Json :=
  if w.liveExists then w.live else Json.obj []

/-- The partial-update merge block shared by create_config and
set_using_config: every top-level key of the stored settings overwrites the
same key of the existing settings; when either side is not an object the
stored settings replace the existing content wholesale. -/
def mergeSettingsUpdate (existing stored : Json) : Json :=
  match stored with
  | Json.obj storedObj =>
      match existing with
      | Json.obj existingObj =>
          Json.obj (storedObj.foldl (fun acc p => insertKV acc p.1 p.2) existingObj)
      | _ => stored
  | _ => stored

/-- create_config (commands.rs lines 390 to 496) as a state transformer. The
generated Original Config id and the timestamp are parameters; the record
updates of the source are written out field by field. Returns the created
store and the new world. -/
def create_config (w : ProfileWorld) (id title : String) (settings : Json)
    (now : Nat) (origId : String) : ConfigStore × ProfileWorld :=
  let storesData0 := readStores w
  let notification1 :=
    match storesData0.notification with
    | none => some (⟨true, ["Notification"]⟩ : NotificationSettings)
    | some n => some n
  let shouldBeActive := storesData0.configs.isEmpty
  let configs1 :=
    if shouldBeActive && w.liveExists then
      storesData0.configs ++ [⟨origId, "Original Config", now, readLive w, false⟩]
    else storesData0.configs
  let liveExists2 := if shouldBeActive then true else w.liveExists
  let live2 :=
    if shouldBeActive then mergeSettingsUpdate (readLive w) settings else w.live
  let newStore : ConfigStore := ⟨id, title, now, settings, shouldBeActive⟩
  (newStore,
   { storesFileExists := true,
     stores := { configs := configs1 ++ [newStore],
                 distinctId := storesData0.distinctId,
                 notification := notification1 },
     liveExists := liveExists2, live := live2 })

/-- delete_config (commands.rs lines 498 to 523). -/
def delete_config (w : ProfileWorld) (storeId : String) : Except String ProfileWorld :=
  if !w.storesFileExists then Except.error "Stores file does not exist"
  else
    let storesData := readStores w
    let remaining := storesData.configs.filter (fun st => st.id != storeId)
    if remaining.length = storesData.configs.length then Except.error "Store not found"
    else
      Except.ok { storesFileExists := true,
                  stores := { storesData with configs := remaining },
                  liveExists := w.liveExists, live := w.live }

/-- set_using_config (commands.rs lines 525 to 591). Every store whose id
matches is set to using, every other store to not using; the settings of the
last matching store are partial-merged into the live settings file. -/
def set_using_config (w : ProfileWorld) (storeId : String) : Except String ProfileWorld :=
  if !w.storesFileExists then Except.error "Stores file does not exist"
  else
    let storesData := readStores w
    if !(storesData.configs.any (fun st => st.id == storeId)) then
      Except.error "Store not found"
    else
      let newConfigs := storesData.configs.map (fun st =>
        if st.id == storeId then { st with isUsing := true } else { st with isUsing := false })
      let selected := (storesData.configs.filter (fun st => st.id == storeId)).getLast?
      let liveExists2 :=
        match selected with
        | some _ => true
        | none => w.liveExists
      let live2 :=
        match selected with
        | some st => mergeSettingsUpdate (readLive w) st.settings
        | none => w.live
      Except.ok { storesFileExists := true,
                  stores := { storesData with configs := newConfigs },
                  liveExists := liveExists2, live := live2 }

/-- reset_to_original_config (commands.rs lines 593 to 632): clear using on
every store when the stores file exists, then set the env key of the live
settings content to an empty object when that content is an object, and
write the live file back in both cases. -/
def reset_to_original_config (w : ProfileWorld) : ProfileWorld :=
  let storesFileExists1 := w.storesFileExists
  let storesData1 :=
    if w.storesFileExists then
      { readStores w with
        configs := (readStores w).configs.map (fun st => { st with isUsing := false }) }
    else w.stores
  let existing := readLive w
  let live1 :=
    match existing with
    | Json.obj existingObj => Json.obj (insertKV existingObj "env" (Json.obj []))
    | _ => existing
  { storesFileExists := storesFileExists1, stores := storesData1,
    liveExists := true, live := live1 }

/-- One UI-facing profile command with the inputs it takes. -/
inductive ProfileOp where
  | create (id title : String) (settings : Json) (now : Nat) (origId : String)
  | setActive (id : String)
  | delete (id : String)

/-- Apply one command; a failed command performs no write and leaves the
world unchanged. -/
def applyProfileOp (w : ProfileWorld) (op : ProfileOp) : ProfileWorld :=
  match op with
  | .create id title settings now origId => (create_config w id title settings now origId).2
  | .setActive id =>
      match set_using_config w id with
      | .ok w2 => w2
      | .error _ => w
  | .delete id =>
      match delete_config w id with
      | .ok w2 => w2
      | .error _ => w

/-- The initial world: neither backing file exists yet. -/
def initialProfileWorld : ProfileWorld :=
  ⟨false, ⟨[], none, none⟩, false, Json.obj []⟩

/-- Number of stores flagged as using. -/
def countUsing (l : List ConfigStore) : Nat := l.countP (fun st => st.isUsing)

/-! ## Claim C3 -/

/-- C3 counterexample: create_config does not enforce id uniqueness and
set_using_config flags every store whose id matches. Creating two profiles
with the same id and then activating that id leaves two stores with the
using flag set, so the claimed invariant fails for this call sequence. -/
theorem C3_counterexample :
    countUsing (readStores (List.foldl applyProfileOp initialProfileWorld
      [ProfileOp.create "x" "t" (Json.obj []) 1 "o1",
       ProfileOp.create "x" "t" (Json.obj []) 2 "o2",
       ProfileOp.setActive "x"])).configs = 2
    ∧ ¬ countUsing (readStores (List.foldl applyProfileOp initialProfileWorld
      [ProfileOp.create "x" "t" (Json.obj []) 1 "o1",
       ProfileOp.create "x" "t" (Json.obj []) 2 "o2",
       ProfileOp.setActive "x"])).configs ≤ 1 := by
  have h : countUsing (readStores (List.foldl applyProfileOp initialProfileWorld
      [ProfileOp.create "x" "t" (Json.obj []) 1 "o1",
       ProfileOp.create "x" "t" (Json.obj []) 2 "o2",
       ProfileOp.setActive "x"])).configs = 2 := rfl
  refine ⟨h, ?_⟩
  rw [h]
  decide

/-- The profile ids in a stores list are pairwise distinct. -/
def IdsNodup (l : List ConfigStore) : Prop := (l.map ConfigStore.id).Nodup

/-- Worlds reachable from the initial world by profile commands in which
every create call uses a fresh profile id and a fresh generated Original
Config id. -/
inductive ReachableDistinct : ProfileWorld → Prop where
  | init : ReachableDistinct initialProfileWorld
  | create {w : ProfileWorld} (id title : String) (settings : Json) (now : Nat)
      (origId : String) (hr : ReachableDistinct w)
      (hid : ∀ st ∈ (readStores w).configs, st.id ≠ id)
      (horig : ∀ st ∈ (readStores w).configs, st.id ≠ origId)
      (hdiff : id ≠ origId) :
      ReachableDistinct (applyProfileOp w (ProfileOp.create id title settings now origId))
  | setActive {w : ProfileWorld} (id : String) (hr : ReachableDistinct w) :
      ReachableDistinct (applyProfileOp w (ProfileOp.setActive id))
  | delete {w : ProfileWorld} (id : String) (hr : ReachableDistinct w) :
      ReachableDistinct (applyProfileOp w (ProfileOp.delete id))

theorem countP_matching_le_one (l : List ConfigStore) (storeId : String)
    (h : (l.map ConfigStore.id).Nodup) :
    l.countP (fun st => st.id == storeId) ≤ 1 := by
  induction l with
  | nil => simp
  | cons hd tl ih =>
      simp only [List.map_cons, List.nodup_cons] at h
      rw [List.countP_cons]
      by_cases hh : hd.id = storeId
      · have h0 : tl.countP (fun st => st.id == storeId) = 0 := by
          rw [List.countP_eq_zero]
          intro st hst
          simp only [beq_iff_eq]
          intro hst2
          apply h.1
          have hmem : st.id ∈ tl.map ConfigStore.id := List.mem_map_of_mem _ hst
          rw [hst2] at hmem
          rw [hh]
          exact hmem
        simp [h0, hh]
      · have hb : (hd.id == storeId) = false := by
          rw [beq_eq_false_iff_ne]
          exact hh
        simp [hb]
        exact ih h.2

theorem reachableDistinct_invariant (w : ProfileWorld) (h : ReachableDistinct w) :
    IdsNodup (readStores w).configs ∧ countUsing (readStores w).configs ≤ 1 := by
  induction h with
  | init => exact ⟨by simp [initialProfileWorld, readStores, IdsNodup],
      by simp [initialProfileWorld, readStores, countUsing]⟩
  | create id title settings now origId hr hid horig hdiff ih =>
      rename_i wc
      obtain ⟨ihN, ihC⟩ := ih
      have hconfigs : (readStores (applyProfileOp wc
          (ProfileOp.create id title settings now origId))).configs
          = (if (readStores wc).configs.isEmpty && wc.liveExists then
              (readStores wc).configs ++ [⟨origId, "Original Config", now, readLive wc, false⟩]
            else (readStores wc).configs)
            ++ [⟨id, title, now, settings, (readStores wc).configs.isEmpty⟩] := rfl
      rw [IdsNodup, countUsing, hconfigs]
      by_cases hE : (readStores wc).configs.isEmpty
      · rw [List.isEmpty_iff] at hE
        rw [hE]
        cases hlv : wc.liveExists with
        | true =>
            refine ⟨?_, ?_⟩
            · simp [List.isEmpty_nil, hdiff, Ne.symm hdiff]
            · simp [List.countP_cons, List.isEmpty_nil]
        | false =>
            refine ⟨?_, ?_⟩
            · simp [List.isEmpty_nil]
            · simp [List.countP_cons, List.isEmpty_nil]
      · have hEb : (readStores wc).configs.isEmpty = false := by
          cases hv : (readStores wc).configs.isEmpty with
          | true => exact absurd hv hE
          | false => rfl
        rw [hEb]
        simp only [Bool.false_and, Bool.false_eq_true, if_false]
        refine ⟨?_, ?_⟩
        · rw [List.map_append, List.nodup_append]
          refine ⟨ihN, by simp, ?_⟩
          intro a ha hb
          simp only [List.map_cons, List.map_nil, List.mem_cons, List.not_mem_nil,
            or_false] at hb
          obtain ⟨st, hst, hsta⟩ := List.mem_map.mp ha
          exact hid st hst (by rw [hsta, hb])
        · rw [List.countP_append]
          have h1 : List.countP (fun st => st.isUsing)
              [(⟨id, title, now, settings, false⟩ : ConfigStore)] = 0 := by
            simp [List.countP_cons]
          rw [h1]
          simpa using ihC
  | setActive id hr ih =>
      rename_i wc
      obtain ⟨ihN, ihC⟩ := ih
      simp only [applyProfileOp]
      cases hres : set_using_config wc id with
      | error e => exact ⟨ihN, ihC⟩
      | ok w2 =>
          have hw2 : (readStores w2).configs = (readStores wc).configs.map (fun st =>
              if st.id == id then { st with isUsing := true }
              else { st with isUsing := false }) := by
            by_cases hsf : wc.storesFileExists
            · by_cases hany : (readStores wc).configs.any (fun st => st.id == id)
              · simp only [set_using_config, hsf, hany, Bool.not_true, Bool.false_eq_true,
                  if_false, Except.ok.injEq] at hres
                rw [← hres]
                rfl
              · have hanyb : (readStores wc).configs.any (fun st => st.id == id) = false := by
                  cases hv : (readStores wc).configs.any (fun st => st.id == id) with
                  | true => exact absurd hv hany
                  | false => rfl
                simp [set_using_config, hsf, hanyb] at hres
            · have hsfb : wc.storesFileExists = false := by
                cases hv : wc.storesFileExists with
                | true => exact absurd hv hsf
                | false => rfl
              simp [set_using_config, hsfb] at hres
          refine ⟨?_, ?_⟩
          · rw [IdsNodup, hw2, List.map_map]
            have hmapeq : ((readStores wc).configs.map
                (ConfigStore.id ∘ fun st =>
                  if st.id == id then { st with isUsing := true }
                  else { st with isUsing := false }))
                = (readStores wc).configs.map ConfigStore.id := by
              apply List.map_congr_left
              intro st _
              by_cases hh : st.id == id <;> simp [Function.comp, hh]
            rw [hmapeq]
            exact ihN
          · rw [countUsing, hw2, List.countP_map]
            have hcnt : ((readStores wc).configs.countP
                ((fun st => st.isUsing) ∘ fun st =>
                  if st.id == id then { st with isUsing := true }
                  else { st with isUsing := false }))
                = (readStores wc).configs.countP (fun st => st.id == id) := by
              apply List.countP_congr
              intro st _
              by_cases hh : st.id == id <;> simp [Function.comp, hh]
            rw [hcnt]
            exact countP_matching_le_one _ _ ihN
  | delete id hr ih =>
      rename_i wc
      obtain ⟨ihN, ihC⟩ := ih
      simp only [applyProfileOp]
      cases hres : delete_config wc id with
      | error e => exact ⟨ihN, ihC⟩
      | ok w2 =>
          have hw2 : (readStores w2).configs
              = (readStores wc).configs.filter (fun st => st.id != id) := by
            by_cases hsf : wc.storesFileExists
            · by_cases hlen : ((readStores wc).configs.filter
                  (fun st => st.id != id)).length = (readStores wc).configs.length
              · simp [delete_config, hsf, hlen] at hres
              · simp only [delete_config, hsf, Bool.not_true, Bool.false_eq_true, if_false,
                  hlen, Except.ok.injEq] at hres
                rw [← hres]
                rfl
            · have hsfb : wc.storesFileExists = false := by
                cases hv : wc.storesFileExists with
                | true => exact absurd hv hsf
                | false => rfl
              simp [delete_config, hsfb] at hres
          refine ⟨?_, ?_⟩
          · rw [IdsNodup, hw2]
            exact List.Nodup.sublist (List.Sublist.map _ (List.filter_sublist _)) ihN
          · rw [countUsing, hw2]
            exact le_trans (List.Sublist.countP_le _ (List.filter_sublist _)) ihC

/-- C3 amended: after any sequence of create, set-active and delete profile
commands in which every create call uses a profile id (and generated
Original Config id) not already present in the collection, at most one
profile has the using flag set; zero active profiles is a reachable, valid
state. -/
theorem C3_amended_single_active :
    (∀ w : ProfileWorld, ReachableDistinct w → countUsing (readStores w).configs ≤ 1)
    ∧ (∃ w : ProfileWorld, ReachableDistinct w
        ∧ countUsing (readStores w).configs = 0) := by
  constructor
  · intro w h
    exact (reachableDistinct_invariant w h).2
  · exact ⟨initialProfileWorld, ReachableDistinct.init, rfl⟩

/-- Witness for C3 amended: a concrete two-command reachable world. -/
theorem C3_amended_witness :
    countUsing (readStores (applyProfileOp (applyProfileOp initialProfileWorld
      (ProfileOp.create "p1" "t" (Json.obj []) 1 "o1"))
      (ProfileOp.setActive "p1"))).configs ≤ 1 :=
  C3_amended_single_active.1 _
    (ReachableDistinct.setActive "p1"
      (ReachableDistinct.create "p1" "t" (Json.obj []) 1 "o1" ReachableDistinct.init
        (by simp [initialProfileWorld, readStores])
        (by simp [initialProfileWorld, readStores])
        (by decide)))

/-! ## Claim C6 -/

/-- C6: activating a profile partial-merges its settings into the live
settings file: the live content becomes the shallow merge of the profile
settings over the prior live object, so every top-level key present in the
profile settings overwrites the same key and every absent key keeps its
prior value. -/
theorem C6_set_using_partial_merge (w w2 : ProfileWorld) (storeId : String)
    (ss el : List (String × Json))
    (hok : set_using_config w storeId = Except.ok w2)
    (hsel : (((readStores w).configs.filter (fun st => st.id == storeId)).getLast?).map
        ConfigStore.settings = some (Json.obj ss))
    (hlive : readLive w = Json.obj el)
    (hnd : (ss.map Prod.fst).Nodup) :
    w2.live = Json.obj (ss.foldl (fun acc p => insertKV acc p.1 p.2) el)
    ∧ (∀ k v, lookupKV ss k = some v → w2.live.lookupJ k = some v)
    ∧ (∀ k, k ∉ ss.map Prod.fst → w2.live.lookupJ k = lookupKV el k) := by
  by_cases hsf : w.storesFileExists
  · by_cases hany : (readStores w).configs.any (fun st => st.id == storeId)
    · cases hgl : ((readStores w).configs.filter (fun st => st.id == storeId)).getLast? with
      | none =>
          rw [hgl] at hsel
          simp at hsel
      | some st =>
          rw [hgl] at hsel
          simp at hsel
          have hw2 : w2.live = mergeSettingsUpdate (readLive w) st.settings := by
            simp only [set_using_config, hsf, hany, Bool.not_true, Bool.false_eq_true,
              if_false, hgl, Except.ok.injEq] at hok
            rw [← hok]
          rw [hsel, hlive] at hw2
          have hmerge : mergeSettingsUpdate (Json.obj el) (Json.obj ss)
              = Json.obj (ss.foldl (fun acc p => insertKV acc p.1 p.2) el) := rfl
          rw [hmerge] at hw2
          refine ⟨hw2, ?_, ?_⟩
          · intro k v hkv
            rw [hw2]
            simp only [Json.lookupJ]
            exact lookupKV_foldl_insert_nodup Prod.snd ss el k v hnd hkv
          · intro k hk
            rw [hw2]
            simp only [Json.lookupJ]
            exact lookupKV_foldl_insert_not_mem Prod.fst Prod.snd ss el k hk
    · have hanyb : (readStores w).configs.any (fun st => st.id == storeId) = false := by
        cases hv : (readStores w).configs.any (fun st => st.id == storeId) with
        | true => exact absurd hv hany
        | false => rfl
      simp [set_using_config, hsf, hanyb] at hok
  · have hsfb : w.storesFileExists = false := by
      cases hv : w.storesFileExists with
      | true => exact absurd hv hsf
      | false => rfl
    simp [set_using_config, hsfb] at hok

/-- Concrete world for the C6 witness: one profile p with settings b=9, c=3
over a live settings file a=1, b=2. -/
def c6World : ProfileWorld :=
  ⟨true,
   ⟨[⟨"p", "t", 0, Json.obj [("b", Json.num 9), ("c", Json.num 3)], false⟩], none, none⟩,
   true, Json.obj [("a", Json.num 1), ("b", Json.num 2)]⟩

/-- The world after activating profile p in c6World. -/
def c6World2 : ProfileWorld :=
  match set_using_config c6World "p" with
  | Except.ok w => w
  | Except.error _ => initialProfileWorld

/-- Witness for C6: activating the profile over live content a=1, b=2 with
profile settings b=9, c=3 yields a=1, b=9, c=3. -/
theorem C6_witness :
    c6World2.live = Json.obj [("a", Json.num 1), ("b", Json.num 9), ("c", Json.num 3)] := by
  have h := (C6_set_using_partial_merge c6World c6World2 "p"
    [("b", Json.num 9), ("c", Json.num 3)] [("a", Json.num 1), ("b", Json.num 2)]
    rfl rfl rfl (by simp)).1
  rw [h]
  rfl

/-! ## Claim C9 -/

/-- Concrete world for the C9 counterexample: the live settings file holds a
JSON number, not an object. -/
def c9World : ProfileWorld := ⟨false, ⟨[], none, none⟩, true, Json.num 5⟩

/-- C9 counterexample: when the prior live settings content is not a JSON
object, reset_to_original_config writes it back unchanged, so the env key
does not become the empty object, contradicting the claim for this prior
content. -/
theorem C9_counterexample :
    (reset_to_original_config c9World).live = Json.num 5
    ∧ (reset_to_original_config c9World).live.lookupJ "env" ≠ some (Json.obj []) := by
  constructor
  · rfl
  · intro hcontra
    rw [show (reset_to_original_config c9World).live = Json.num 5 from rfl] at hcontra
    simp [Json.lookupJ] at hcontra

/-- C9 amended: after reset_to_original_config, every profile has the using
flag cleared; when the prior live settings content is a JSON object, its env
key becomes the empty object and every other top-level key keeps its prior
value; a non-object prior content is written back unchanged. -/
theorem C9_amended_reset (w : ProfileWorld) :
    (∀ st ∈ (readStores (reset_to_original_config w)).configs, st.isUsing = false)
    ∧ (∀ el, readLive w = Json.obj el →
        (reset_to_original_config w).live.lookupJ "env" = some (Json.obj [])
        ∧ ∀ k, k ≠ "env" →
          (reset_to_original_config w).live.lookupJ k = lookupKV el k)
    ∧ ((∀ el, readLive w ≠ Json.obj el) →
        (reset_to_original_config w).live = readLive w) := by
  refine ⟨?_, ?_, ?_⟩
  · intro st hst
    by_cases hsf : w.storesFileExists
    · simp only [reset_to_original_config, readStores, hsf, if_true] at hst
      obtain ⟨st0, _, rfl⟩ := List.mem_map.mp hst
      rfl
    · have hsfb : w.storesFileExists = false := by
        cases hv : w.storesFileExists with
        | true => exact absurd hv hsf
        | false => rfl
      simp [reset_to_original_config, readStores, hsfb] at hst
  · intro el hel
    have hl : (reset_to_original_config w).live
        = Json.obj (insertKV el "env" (Json.obj [])) := by
      simp [reset_to_original_config, hel]
    constructor
    · rw [hl]
      simp only [Json.lookupJ]
      exact lookupKV_insertKV_self _ _ _
    · intro k hk
      rw [hl]
      simp only [Json.lookupJ]
      exact lookupKV_insertKV_ne _ _ _ _ hk
  · intro hne
    cases hv : readLive w with
    | obj o => exact absurd hv (hne o)
    | null => simp [reset_to_original_config, hv]
    | bool b => simp [reset_to_original_config, hv]
    | num n => simp [reset_to_original_config, hv]
    | str s => simp [reset_to_original_config, hv]
    | arr a => simp [reset_to_original_config, hv]

/-- Concrete world for the C9 amended witness. -/
def c9WitnessWorld : ProfileWorld :=
  ⟨true, ⟨[⟨"p", "t", 0, Json.obj [], true⟩], none, none⟩,
   true, Json.obj [("a", Json.num 1), ("env", Json.obj [("F", Json.num 1)])]⟩

/-- Witness for C9 amended at a concrete world with an object live file. -/
theorem C9_amended_witness :
    (reset_to_original_config c9WitnessWorld).live.lookupJ "env" = some (Json.obj [])
    ∧ (reset_to_original_config c9WitnessWorld).live.lookupJ "a"
      = lookupKV [("a", Json.num 1), ("env", Json.obj [("F", Json.num 1)])] "a" :=
  ⟨((C9_amended_reset c9WitnessWorld).2.1
      [("a", Json.num 1), ("env", Json.obj [("F", Json.num 1)])] rfl).1,
   ((C9_amended_reset c9WitnessWorld).2.1
      [("a", Json.num 1), ("env", Json.obj [("F", Json.num 1)])] rfl).2
     "a" (by decide)⟩

/-! ## Security templates (commands.rs: install_security_template,
uninstall_security_template and the helpers they call). Filesystem paths are
modeled as lists of path segments. -/

/-- Split a character list at the path separator. -/
def splitSegsAux : List Char → List Char → List String
  | [], acc => [String.mk acc.reverse]
  | c :: cs, acc =>
      if c = '/' then String.mk acc.reverse :: splitSegsAux cs []
      else splitSegsAux cs (c :: acc)

/-- Components of a relative path string: split on the separator, dropping
empty and current-directory segments, as Path components iteration does. -/
def pathComponents (s : String) : List String :=
  (splitSegsAux s.toList []).filter (fun c => c != "" && c != ".")

/-- Map::get on an association list keyed by segment paths. -/
def lookupPathKV {α : Type} : List (List String × α) → List String → Option α
  | [], _ => none
  | (k1, v) :: rest, k => if k1 = k then some v else lookupPathKV rest k

/-- fs::write on an association list keyed by segment paths: replace the
binding in place or append a fresh one. -/
def insertPathKV {α : Type} : List (List String × α) → List String → α →
    List (List String × α)
  | [], k, v => [(k, v)]
  | (k1, v1) :: rest, k, v =>
      if k1 = k then (k, v) :: rest else (k1, v1) :: insertPathKV rest k v

theorem lookupPathKV_insertPathKV_ne {α : Type} (l : List (List String × α))
    (k k2 : List String) (v : α) (h : k2 ≠ k) :
    lookupPathKV (insertPathKV l k v) k2 = lookupPathKV l k2 := by
  induction l with
  | nil => simp [insertPathKV, lookupPathKV, Ne.symm h]
  | cons hd tl ih =>
      obtain ⟨k1, v1⟩ := hd
      by_cases h1 : k1 = k
      · subst h1
        simp [insertPathKV, lookupPathKV, Ne.symm h]
      · simp only [insertPathKV, if_neg h1, lookupPathKV]
        by_cases h2 : k1 = k2
        · simp [h2]
        · simp [h2, ih]

/-- InstalledSecurityPackItem struct; targetPath is kept in segment form. -/
structure InstalledSecurityPackItem where
  templateType : String
  id : String
  targetPath : List String
  installedAt : String

/-- SkillFilePayload struct. -/
structure SkillFilePayload where
  relativePath : String
  content : String

/-- SecurityPackInstallPayload struct. -/
structure SecurityPackInstallPayload where
  templateType : String
  id : String
  content : Option String
  skillFiles : Option (List SkillFilePayload)
  serverName : Option String
  serverConfig : Option Json

/-- The state touched by the security-template commands: existing
directories and files, the user-global .mcp.json, the live settings file,
and the install manifest items. -/
structure TemplateWorld where
  dirs : List (List String)
  files : List (List String × String)
  mcpJsonExists : Bool
  mcpJson : Json
  settingsExists : Bool
  settings : Json
  manifest : List InstalledSecurityPackItem

/-- A path exists when it names a recorded directory or file. -/
def fsExists (w : TemplateWorld) (p : List String) : Bool :=
  w.dirs.contains p || w.files.any (fun f => f.1 == p)

/-- ensure_dir (create_dir_all). -/
def ensureDir (w : TemplateWorld) (p : List String) : TemplateWorld :=
  if w.dirs.contains p then w else { w with dirs := w.dirs ++ [p] }

/-- fs::write of a file. -/
def writeFileW (w : TemplateWorld) (p : List String) (content : String) : TemplateWorld :=
  { w with files := insertPathKV w.files p content }

/-- update_global_mcp_server (commands.rs lines 877 to 903); the source
unwraps non-object content, which surfaces here as an error. -/
def update_global_mcp_server (w : TemplateWorld) (serverName : String)
    (serverConfig : Json) : Except String TemplateWorld :=
  let jsonValue := if w.mcpJsonExists then w.mcpJson else Json.obj []
  match jsonValue with
  | Json.obj obj0 =>
      let obj1 := entryOrInsert obj0 "mcpServers" (Json.obj [])
      match lookupKV obj1 "mcpServers" with
      | some (Json.obj servers) =>
          let obj2 := insertKV obj1 "mcpServers"
            (Json.obj (insertKV servers serverName serverConfig))
          Except.ok { w with mcpJsonExists := true, mcpJson := Json.obj obj2 }
      | _ => Except.error "mcpServers is not an object"
  | _ => Except.error ".mcp.json is not an object"

/-- remove_mcp_from_settings (commands.rs lines 948 to 977). -/
def remove_mcp_from_settings (w : TemplateWorld) (serverName : String) :
    Except String TemplateWorld :=
  if !w.settingsExists then Except.ok w
  else
    match w.settings with
    | Json.obj settingsObj =>
        let obj1 := modifyIfArray settingsObj "enabledMcpjsonServers"
          (fun a => a.filter (fun v => v.asStr != some serverName))
        let obj2 := modifyIfArray obj1 "disabledMcpjsonServers"
          (fun a => a.filter (fun v => v.asStr != some serverName))
        Except.ok { w with settings := Json.obj obj2 }
    | _ => Except.error "Settings is not an object"

/-- delete_global_mcp_server (commands.rs lines 906 to 945). -/
def delete_global_mcp_server (w : TemplateWorld) (serverName : String) :
    Except String TemplateWorld :=
  if !w.mcpJsonExists then Except.error "MCP configuration file does not exist"
  else
    match w.mcpJson with
    | Json.obj obj0 =>
        match lookupKV obj0 "mcpServers" with
        | some (Json.obj servers) =>
            if !(servers.any (fun p => p.1 == serverName)) then
              Except.error ("MCP server not found: " ++ serverName)
            else
              let servers2 := servers.filter (fun p => p.1 != serverName)
              let obj1 := if servers2.isEmpty then
                  obj0.filter (fun p => p.1 != "mcpServers")
                else insertKV obj0 "mcpServers" (Json.obj servers2)
              remove_mcp_from_settings { w with mcpJson := Json.obj obj1 } serverName
        | _ => Except.error "No mcpServers found in .mcp.json"
    | _ => Except.error ".mcp.json is not an object"

/-- install_file_template (commands.rs lines 3902 to 3925). -/
def install_file_template (w : TemplateWorld)
    (templateType id content subdirectory : String) :
    TemplateWorld × Except String (List String) :=
  let targetDir := ["~", ".claude", subdirectory]
  let w := ensureDir w targetDir
  let target := targetDir ++ [id ++ ".md"]
  if fsExists w target then
    (w, Except.error (templateType ++ " file already exists"))
  else
    (writeFileW w target content, Except.ok target)

/-- The loop of the skill branch of install_security_template: write each
provided file beneath the target directory, rejecting any relative path
containing a parent-directory traversal segment. -/
def writeSkillFiles (targetDir : List String) :
    TemplateWorld → List SkillFilePayload → TemplateWorld × Except String Unit
  | w, [] => (w, Except.ok ())
  | w, f :: rest =>
      if (pathComponents f.relativePath).contains ".." then
        (w, Except.error
          ("Invalid skill file path (parent dir not allowed): " ++ f.relativePath))
      else
        let fullPath := targetDir ++ pathComponents f.relativePath
        let w := ensureDir w fullPath.dropLast
        let w := writeFileW w fullPath f.content
        writeSkillFiles targetDir w rest

/-- install_security_template (commands.rs lines 3938 to 4043). The manifest
is read up front and only written back at the very end, so any error leaves
the manifest unchanged; filesystem effects before the error persist. -/
def install_security_template (w : TemplateWorld)
    (payload : SecurityPackInstallPayload) (now : String) :
    TemplateWorld × Except String Unit :=
  let w := ensureDir w ["~", ".ccconfig", "security_packs"]
  let manifest0 := w.manifest
  match payload.templateType with
  | "agent" =>
      match payload.content with
      | none => (w, Except.error "Agent install payload missing content")
      | some content =>
          let res := install_file_template w "agent" payload.id content "agents"
          match res.2 with
          | Except.error e => (res.1, Except.error e)
          | Except.ok target =>
              let w := ensureDir res.1 ["~", ".ccconfig", "security_packs"]
              ({ w with manifest := manifest0 ++ [⟨"agent", payload.id, target, now⟩] },
               Except.ok ())
  | "command" =>
      match payload.content with
      | none => (w, Except.error "Command install payload missing content")
      | some content =>
          let res := install_file_template w "command" payload.id content "commands"
          match res.2 with
          | Except.error e => (res.1, Except.error e)
          | Except.ok target =>
              let w := ensureDir res.1 ["~", ".ccconfig", "security_packs"]
              ({ w with manifest := manifest0 ++ [⟨"command", payload.id, target, now⟩] },
               Except.ok ())
  | "skill" =>
      match payload.skillFiles with
      | none => (w, Except.error "Skill install payload missing skillFiles")
      | some skillFiles =>
          let w := ensureDir w ["~", ".claude", "skills"]
          let targetDir := ["~", ".claude", "skills", payload.id]
          if fsExists w targetDir then
            (w, Except.error "Skill directory already exists")
          else
            let w := ensureDir w targetDir
            let res := writeSkillFiles targetDir w skillFiles
            match res.2 with
            | Except.error e => (res.1, Except.error e)
            | Except.ok _ =>
                let w := ensureDir res.1 ["~", ".ccconfig", "security_packs"]
                ({ w with manifest := manifest0 ++ [⟨"skill", payload.id, targetDir, now⟩] },
                 Except.ok ())
  | "mcp" =>
      match payload.serverName with
      | none => (w, Except.error "MCP install payload missing serverName")
      | some serverName =>
          match payload.serverConfig with
          | none => (w, Except.error "MCP install payload missing serverConfig")
          | some serverConfig =>
              match update_global_mcp_server w serverName serverConfig with
              | Except.error e => (w, Except.error e)
              | Except.ok w2 =>
                  let w2 := ensureDir w2 ["~", ".ccconfig", "security_packs"]
                  ({ w2 with manifest := manifest0 ++ [⟨"mcp", serverName, ["mcp"], now⟩] },
                   Except.ok ())
  | other => (w, Except.error ("Unsupported security template type: " ++ other))

/-- The loop of uninstall_security_template: matching items have their
artifact removed and are dropped; every other item is kept in order. -/
def uninstallLoop (tt id : String) :
    TemplateWorld → List InstalledSecurityPackItem → List InstalledSecurityPackItem →
    TemplateWorld × Except String (List InstalledSecurityPackItem)
  | w, remaining, [] => (w, Except.ok remaining)
  | w, remaining, item :: rest =>
      if item.templateType == tt && item.id == id then
        match tt with
        | "agent" | "command" =>
            let w := if fsExists w item.targetPath then
                { w with files := w.files.filter (fun f => !(f.1 == item.targetPath)) }
              else w
            uninstallLoop tt id w remaining rest
        | "skill" =>
            let w := if fsExists w item.targetPath then
                { w with
                  dirs := w.dirs.filter (fun d => !(item.targetPath.isPrefixOf d)),
                  files := w.files.filter (fun f => !(item.targetPath.isPrefixOf f.1)) }
              else w
            uninstallLoop tt id w remaining rest
        | "mcp" =>
            match delete_global_mcp_server w item.id with
            | Except.error e => (w, Except.error e)
            | Except.ok w2 => uninstallLoop tt id w2 remaining rest
        | _ => uninstallLoop tt id w remaining rest
      else
        uninstallLoop tt id w (remaining ++ [item]) rest

/-- uninstall_security_template (commands.rs lines 4045 to 4087). -/
def uninstall_security_template (w : TemplateWorld) (templateType id : String) :
    TemplateWorld × Except String Unit :=
  let w := ensureDir w ["~", ".ccconfig", "security_packs"]
  let res := uninstallLoop templateType id w [] w.manifest
  match res.2 with
  | Except.error e => (res.1, Except.error e)
  | Except.ok remaining =>
      let w2 := ensureDir res.1 ["~", ".ccconfig", "security_packs"]
      ({ w2 with manifest := remaining }, Except.ok ())

/-! ## Claim C7 -/

theorem bool_eq_false {b : Bool} (h : ¬ b = true) : b = false := by
  cases b with
  | true => exact absurd rfl h
  | false => rfl

theorem ensureDir_files (w : TemplateWorld) (p : List String) :
    (ensureDir w p).files = w.files := by
  unfold ensureDir
  split <;> rfl

theorem ensureDir_manifest (w : TemplateWorld) (p : List String) :
    (ensureDir w p).manifest = w.manifest := by
  unfold ensureDir
  split <;> rfl

theorem writeSkillFiles_error_of_traversal (targetDir : List String)
    (fl : List SkillFilePayload) (w : TemplateWorld)
    (h : ∃ f ∈ fl, ".." ∈ pathComponents f.relativePath) :
    ∃ e, (writeSkillFiles targetDir w fl).2 = Except.error e := by
  induction fl generalizing w with
  | nil => simp at h
  | cons f rest ih =>
      by_cases hf : ".." ∈ pathComponents f.relativePath
      · exact ⟨"Invalid skill file path (parent dir not allowed): " ++ f.relativePath,
          by simp [writeSkillFiles, hf]⟩
      · obtain ⟨g, hg, hgt⟩ := h
        rcases List.mem_cons.mp hg with rfl | hgr
        · exact absurd hgt hf
        · simp [writeSkillFiles, hf]
          exact ih _ ⟨g, hgr, hgt⟩

theorem writeSkillFiles_manifest (targetDir : List String)
    (fl : List SkillFilePayload) (w : TemplateWorld) :
    (writeSkillFiles targetDir w fl).1.manifest = w.manifest := by
  induction fl generalizing w with
  | nil => rfl
  | cons f rest ih =>
      by_cases hf : ".." ∈ pathComponents f.relativePath
      · simp [writeSkillFiles, hf]
      · simp [writeSkillFiles, hf]
        rw [ih]
        simp [writeFileW, ensureDir_manifest]

theorem writeSkillFiles_traversal_files (targetDir : List String)
    (fl : List SkillFilePayload) (w : TemplateWorld) (q : List String)
    (hq : ".." ∈ q) :
    lookupPathKV (writeSkillFiles targetDir w fl).1.files (targetDir ++ q)
      = lookupPathKV w.files (targetDir ++ q) := by
  induction fl generalizing w with
  | nil => rfl
  | cons f rest ih =>
      by_cases hf : ".." ∈ pathComponents f.relativePath
      · simp [writeSkillFiles, hf]
      · simp [writeSkillFiles, hf]
        rw [ih]
        simp only [writeFileW]
        have hne : targetDir ++ q ≠ targetDir ++ pathComponents f.relativePath := by
          intro hcontra
          have hqc : q = pathComponents f.relativePath := List.append_cancel_left hcontra
          rw [hqc] at hq
          exact hf hq
        rw [lookupPathKV_insertPathKV_ne _ _ _ _ hne, ensureDir_files]

/-- Concrete inputs for the C7 counterexample: an empty world and a skill
payload whose single file path traverses upward. -/
def c7World : TemplateWorld := ⟨[], [], false, Json.obj [], false, Json.obj [], []⟩

/-- The C7 counterexample payload. -/
def c7Payload : SecurityPackInstallPayload :=
  ⟨"skill", "demo", none, some [⟨"../evil.md", "x"⟩], none, none⟩

/-- C7 counterexample: installing a skill whose file list contains a
parent-directory traversal fails and leaves the manifest unchanged, but the
skill directory has already been created under the skills root before the
check runs, contradicting the claim that no directory is created. -/
theorem C7_counterexample :
    (install_security_template c7World c7Payload "t").2
      = Except.error "Invalid skill file path (parent dir not allowed): ../evil.md"
    ∧ (install_security_template c7World c7Payload "t").1.manifest = []
    ∧ (install_security_template c7World c7Payload "t").1.dirs.contains
        ["~", ".claude", "skills", "demo"] = true :=
  ⟨rfl, rfl, rfl⟩

/-- C7 amended: when a skill payload contains a traversal path, the install
fails with a malformed-input error before writing any traversal path or
touching the manifest; however the skill directory (and the files of entries
preceding the offending one) may already have been created. -/
theorem C7_amended_skill_traversal (w : TemplateWorld)
    (payload : SecurityPackInstallPayload) (now : String)
    (fl : List SkillFilePayload)
    (htype : payload.templateType = "skill")
    (hfiles : payload.skillFiles = some fl)
    (htrav : ∃ f ∈ fl, ".." ∈ pathComponents f.relativePath) :
    (∃ e, (install_security_template w payload now).2 = Except.error e)
    ∧ (install_security_template w payload now).1.manifest = w.manifest
    ∧ ∀ q : List String, ".." ∈ q →
        lookupPathKV (install_security_template w payload now).1.files
          (["~", ".claude", "skills", payload.id] ++ q)
        = lookupPathKV w.files (["~", ".claude", "skills", payload.id] ++ q) := by
  simp only [install_security_template, htype, hfiles]
  by_cases hex : fsExists (ensureDir (ensureDir w ["~", ".ccconfig", "security_packs"])
      ["~", ".claude", "skills"]) ["~", ".claude", "skills", payload.id] = true
  · simp only [hex, if_true]
    refine ⟨⟨_, rfl⟩, ?_, ?_⟩
    · rw [ensureDir_manifest, ensureDir_manifest]
    · intro q hq
      rw [ensureDir_files, ensureDir_files]
  · have hexb := bool_eq_false hex
    simp only [hexb, Bool.false_eq_true, if_false]
    obtain ⟨e, he⟩ := writeSkillFiles_error_of_traversal
      ["~", ".claude", "skills", payload.id] fl
      (ensureDir (ensureDir (ensureDir w ["~", ".ccconfig", "security_packs"])
        ["~", ".claude", "skills"]) ["~", ".claude", "skills", payload.id]) htrav
    rw [he]
    refine ⟨⟨e, rfl⟩, ?_, ?_⟩
    · rw [writeSkillFiles_manifest, ensureDir_manifest, ensureDir_manifest,
        ensureDir_manifest]
    · intro q hq
      rw [writeSkillFiles_traversal_files _ _ _ _ hq, ensureDir_files, ensureDir_files,
        ensureDir_files]

/-- Witness for C7 amended at the concrete counterexample inputs. -/
theorem C7_amended_witness :
    (∃ e, (install_security_template c7World c7Payload "t").2 = Except.error e)
    ∧ (install_security_template c7World c7Payload "t").1.manifest = c7World.manifest :=
  ⟨(C7_amended_skill_traversal c7World c7Payload "t" [⟨"../evil.md", "x"⟩]
      rfl rfl ⟨⟨"../evil.md", "x"⟩, by simp, by decide⟩).1,
   (C7_amended_skill_traversal c7World c7Payload "t" [⟨"../evil.md", "x"⟩]
      rfl rfl ⟨⟨"../evil.md", "x"⟩, by simp, by decide⟩).2.1⟩

/-! ## Claim C8 -/

theorem ensureDir_mcpJson (w : TemplateWorld) (p : List String) :
    (ensureDir w p).mcpJson = w.mcpJson := by
  unfold ensureDir
  split <;> rfl

theorem ensureDir_settings (w : TemplateWorld) (p : List String) :
    (ensureDir w p).settings = w.settings := by
  unfold ensureDir
  split <;> rfl

/-- Concrete world for the C8 counterexample: the manifest holds one item
that does not match the requested pair. -/
def c8World : TemplateWorld :=
  ⟨[], [], false, Json.obj [], false, Json.obj [],
   [⟨"agent", "other", ["~", ".claude", "agents", "other.md"], "t"⟩]⟩

/-- C8 counterexample: uninstalling a (templateType, id) pair that matches
no manifest item returns success and leaves the manifest unchanged; no
NotFound failure is surfaced to the caller. -/
theorem C8_counterexample :
    (uninstall_security_template c8World "skill" "demo").2 = Except.ok ()
    ∧ (uninstall_security_template c8World "skill" "demo").1.manifest
      = c8World.manifest :=
  ⟨rfl, rfl⟩

theorem uninstallLoop_no_match (tt id : String) (items : List InstalledSecurityPackItem)
    (w : TemplateWorld) (remaining : List InstalledSecurityPackItem)
    (h : ∀ item ∈ items, ¬(item.templateType = tt ∧ item.id = id)) :
    uninstallLoop tt id w remaining items = (w, Except.ok (remaining ++ items)) := by
  induction items generalizing remaining with
  | nil => simp [uninstallLoop]
  | cons item rest ih =>
      have hb : (item.templateType == tt && item.id == id) = false := by
        by_cases h1 : item.templateType = tt
        · by_cases h2 : item.id = id
          · exact absurd ⟨h1, h2⟩ (h item (List.mem_cons_self _ _))
          · simp [h1, h2]
        · simp [h1]
      simp only [uninstallLoop, hb, Bool.false_eq_true, if_false]
      rw [ih _ (fun it hit => h it (List.mem_cons_of_mem _ hit))]
      simp

/-- C8 amended: uninstall_security_template with a pair matching no manifest
item does not surface a NotFound failure; it succeeds as a no-op, leaving
the manifest items, the files, the registration file and the settings file
unchanged. -/
theorem C8_amended_no_match_noop (w : TemplateWorld) (tt id : String)
    (h : ∀ item ∈ w.manifest, ¬(item.templateType = tt ∧ item.id = id)) :
    (uninstall_security_template w tt id).2 = Except.ok ()
    ∧ (uninstall_security_template w tt id).1.manifest = w.manifest
    ∧ (uninstall_security_template w tt id).1.files = w.files
    ∧ (uninstall_security_template w tt id).1.mcpJson = w.mcpJson
    ∧ (uninstall_security_template w tt id).1.settings = w.settings := by
  have hm : (ensureDir w ["~", ".ccconfig", "security_packs"]).manifest = w.manifest :=
    ensureDir_manifest w _
  have hl := uninstallLoop_no_match tt id
    (ensureDir w ["~", ".ccconfig", "security_packs"]).manifest
    (ensureDir w ["~", ".ccconfig", "security_packs"]) []
    (by rw [hm]; exact h)
  simp only [uninstall_security_template]
  rw [hl]
  refine ⟨rfl, ?_, ?_, ?_, ?_⟩
  · show ([] ++ (ensureDir w ["~", ".ccconfig", "security_packs"]).manifest) = w.manifest
    rw [List.nil_append, hm]
  · show (ensureDir (ensureDir w ["~", ".ccconfig", "security_packs"])
      ["~", ".ccconfig", "security_packs"]).files = w.files
    rw [ensureDir_files, ensureDir_files]
  · show (ensureDir (ensureDir w ["~", ".ccconfig", "security_packs"])
      ["~", ".ccconfig", "security_packs"]).mcpJson = w.mcpJson
    rw [ensureDir_mcpJson, ensureDir_mcpJson]
  · show (ensureDir (ensureDir w ["~", ".ccconfig", "security_packs"])
      ["~", ".ccconfig", "security_packs"]).settings = w.settings
    rw [ensureDir_settings, ensureDir_settings]

/-- Concrete world for the C8 amended witness: an empty manifest. -/
def c8WitnessWorld : TemplateWorld :=
  ⟨[], [], false, Json.obj [], false, Json.obj [], []⟩

/-- Witness for C8 amended at a concrete world. -/
theorem C8_amended_witness :
    (uninstall_security_template c8WitnessWorld "mcp" "x").2 = Except.ok ()
    ∧ (uninstall_security_template c8WitnessWorld "mcp" "x").1.manifest
      = c8WitnessWorld.manifest :=
  ⟨(C8_amended_no_match_noop c8WitnessWorld "mcp" "x" (by simp [c8WitnessWorld])).1,
   (C8_amended_no_match_noop c8WitnessWorld "mcp" "x" (by simp [c8WitnessWorld])).2.1⟩

end ClaudeSamurai
